import Mathlib

/-!
Shallow embedding of the DeepSeek/Gemini LLM-proxy repository
(`proxy_server.py`, `gemini_proxy_server.py`, `mcp_servers/__init__.py`,
`mcp_servers/mcp_client.py`) together with theorems settling the frozen
claims about its specification.

Conventions of the embedding:
* Python JSON values are modelled by the inductive type `JVal`
  (numbers restricted to integers: no descriptor or payload exercised by
  a claim carries fractional numbers).
* Python dictionaries are association lists in insertion order; lookup
  takes the last binding, matching `json.load` duplicate-key behaviour.
* Wall-clock metadata produced by `time.time()` / `uuid` (the `id` and
  `created` fields of OpenAI-style envelopes) is omitted from result
  records, as is the constant `"index": 0` member.
* Machinery that can raise an uncaught Python exception on inputs outside
  the JSON-RPC / Gemini wire shape is modelled with `Except Unit` or is
  noted in the doc comment of the definition.
-/

/-- JSON values as produced by `json.load(s)`: the universe of descriptor
files, JSON-RPC payloads and response bodies handled by the proxy. -/
inductive JVal where
  | null : JVal
  | bool (b : Bool) : JVal
  | num (n : Int) : JVal
  | str (s : String) : JVal
  | arr (items : List JVal) : JVal
  | obj (members : List (String × JVal)) : JVal

/-- Python dictionary `.get(key)`: last binding wins (as for duplicate
keys in `json.load`). Returns `none` when the key is absent. -/
def pyGet (j : JVal) (key : String) : Option JVal :=
  match j with
  | .obj members => (members.reverse.find? (fun p => p.1 == key)).map (·.2)
  | _ => none

/-- `.get(key)` returning a string value, `none` when absent or not a string. -/
def jGetStr (j : JVal) (key : String) : Option String :=
  match pyGet j key with
  | some (.str s) => some s
  | _ => none

/-- Python truthiness of a JSON value (`bool(x)`). -/
def pyTruthy (j : JVal) : Bool :=
  match j with
  | .null => false
  | .bool b => b
  | .num n => n != 0
  | .str s => s != ""
  | .arr items => !items.isEmpty
  | .obj members => !members.isEmpty

/-- `s.startswith(prefixStr)` on strings, computed on the character lists. -/
def strStartsWith (s prefixStr : String) : Bool :=
  prefixStr.data.isPrefixOf s.data

/-- Truthiness of Python `text.strip()`: true exactly when the string has a
character outside the stripped whitespace set (modelled as the ASCII
whitespace characters). -/
def pyStripTruthy (s : String) : Bool :=
  s.data.any (fun c =>
    !(c = ' ' || c = '\t' || c = '\n' || c = '\r' || c = '\x0b' || c = '\x0c'))

/-- Python `value == "literal"` on a JSON value: true exactly when the
value is that string. -/
def jvalIsStr (v : JVal) (s : String) : Bool :=
  match v with
  | .str t => t == s
  | _ => false

/-- Python `x or default` on an optional string result: `None` and the
empty string are falsy and replaced by the default. -/
def pyOr (o : Option String) (d : String) : String :=
  match o with
  | some s => if s = "" then d else s
  | none => d

/-- Lower-case hexadecimal digit, as used by `json.dumps` escapes. -/
def hexDigit (n : Nat) : Char :=
  if n < 10 then Char.ofNat (48 + n) else Char.ofNat (87 + n % 16)

/-- Four-digit lower-case hex rendering of a code unit (`\uXXXX`). -/
def hex4 (n : Nat) : String :=
  String.mk [hexDigit (n / 4096 % 16), hexDigit (n / 256 % 16),
             hexDigit (n / 16 % 16), hexDigit (n % 16)]

/-- Escape one character of a JSON string the way `json.dumps` does.
`ascii = true` models the default `ensure_ascii=True` (non-ASCII code
points become `\uXXXX`, with surrogate pairs above U+FFFF). -/
def jsonEscapeChar (ascii : Bool) (c : Char) : String :=
  if c = '"' then "\\\""
  else if c = '\\' then "\\\\"
  else if c = '\n' then "\\n"
  else if c = '\r' then "\\r"
  else if c = '\t' then "\\t"
  else if c.toNat = 8 then "\\b"
  else if c.toNat = 12 then "\\f"
  else if c.toNat < 32 then "\\u" ++ hex4 c.toNat
  else if ascii && 128 ≤ c.toNat then
    if c.toNat ≤ 65535 then "\\u" ++ hex4 c.toNat
    else
      "\\u" ++ hex4 (55296 + (c.toNat - 65536) / 1024) ++
      "\\u" ++ hex4 (56320 + (c.toNat - 65536) % 1024)
  else String.singleton c

/-- `json.dumps` escaping of a whole string (without the quotes). -/
def jsonEscape (ascii : Bool) (s : String) : String :=
  String.join (s.data.map (jsonEscapeChar ascii))

/-- A `json.dumps` string literal, quotes included. -/
def jsonQuote (ascii : Bool) (s : String) : String :=
  "\"" ++ jsonEscape ascii s ++ "\""

mutual
/-- `json.dumps(value)` with default separators `", "` / `": "`;
`ascii` selects `ensure_ascii`. -/
def jvalDump (ascii : Bool) : JVal → String
  | .null => "null"
  | .bool true => "true"
  | .bool false => "false"
  | .num n => toString n
  | .str s => jsonQuote ascii s
  | .arr items => "[" ++ String.intercalate ", " (jvalDumpList ascii items) ++ "]"
  | .obj members =>
      "\x7b" ++ String.intercalate ", " (jvalDumpMembers ascii members) ++ "\x7d"

def jvalDumpList (ascii : Bool) : List JVal → List String
  | [] => []
  | v :: rest => jvalDump ascii v :: jvalDumpList ascii rest

def jvalDumpMembers (ascii : Bool) : List (String × JVal) → List String
  | [] => []
  | (k, v) :: rest => (jsonQuote ascii k ++ ": " ++ jvalDump ascii v) :: jvalDumpMembers ascii rest
end

/-! ### A strict JSON parser modelling `json.load` / `json.loads`

`json.load` accepts plain JSON only: it does **not** accept `//` or
`/* ... */` comments. The parser below accepts the JSON fragment
exercised by this repository's descriptor files (objects, arrays,
strings with the common escapes, integer numbers, booleans, null) and
rejects everything else, comments included. -/

/-- JSON whitespace skip (space, tab, newline, carriage return). -/
def skipWs : List Char → List Char
  | c :: cs => if c = ' ' ∨ c = '\t' ∨ c = '\n' ∨ c = '\r' then skipWs cs else c :: cs
  | [] => []

/-- Hex digit value for `\uXXXX` escapes. -/
def hexVal (c : Char) : Option Nat :=
  if '0' ≤ c ∧ c ≤ '9' then some (c.toNat - 48)
  else if 'a' ≤ c ∧ c ≤ 'f' then some (c.toNat - 87)
  else if 'A' ≤ c ∧ c ≤ 'F' then some (c.toNat - 55)
  else none

/-- Parse the body of a JSON string after the opening quote. -/
def parsesStringBody (fuel : Nat) (cs : List Char) (acc : List Char) :
    Option (String × List Char) :=
  match fuel with
  | 0 => none
  | fuel + 1 =>
    match cs with
    | [] => none
    | '"' :: rest => some (String.mk acc.reverse, rest)
    | '\\' :: e :: rest =>
      if e = '"' then parsesStringBody fuel rest ('"' :: acc)
      else if e = '\\' then parsesStringBody fuel rest ('\\' :: acc)
      else if e = '/' then parsesStringBody fuel rest ('/' :: acc)
      else if e = 'n' then parsesStringBody fuel rest ('\n' :: acc)
      else if e = 't' then parsesStringBody fuel rest ('\t' :: acc)
      else if e = 'r' then parsesStringBody fuel rest ('\r' :: acc)
      else if e = 'b' then parsesStringBody fuel rest ('\x08' :: acc)
      else if e = 'f' then parsesStringBody fuel rest ('\x0c' :: acc)
      else if e = 'u' then
        match rest with
        | h1 :: h2 :: h3 :: h4 :: rest2 =>
          match hexVal h1, hexVal h2, hexVal h3, hexVal h4 with
          | some a, some b, some c, some d =>
            let v := a * 4096 + b * 256 + c * 16 + d
            if h : v.isValidChar then
              parsesStringBody fuel rest2 (Char.ofNatAux v h :: acc)
            else none
          | _, _, _, _ => none
        | _ => none
      else none
    | '\\' :: [] => none
    | c :: rest =>
      if c.toNat < 32 then none else parsesStringBody fuel rest (c :: acc)

/-- Parse a run of decimal digits. -/
def parsesDigits : List Char → (List Char × List Char)
  | c :: cs =>
    if '0' ≤ c ∧ c ≤ '9' then
      let r := parsesDigits cs
      (c :: r.1, r.2)
    else ([], c :: cs)
  | [] => ([], [])

/-- Digit list to natural number. -/
def digitsToNat (ds : List Char) : Nat :=
  ds.foldl (fun acc c => acc * 10 + (c.toNat - 48)) 0

mutual
/-- Parse one JSON value (strict grammar, integers only). -/
def parsesVal (fuel : Nat) (cs : List Char) : Option (JVal × List Char) :=
  match fuel with
  | 0 => none
  | fuel + 1 =>
    match skipWs cs with
    | [] => none
    | c :: rest =>
      if c = '"' then
        (parsesStringBody (rest.length + 1) rest []).map (fun p => (.str p.1, p.2))
      else if c = '\x7b' then parsesObjMembers fuel rest true []
      else if c = '[' then parsesArrItems fuel rest true []
      else if c = 't' then
        match rest with
        | 'r' :: 'u' :: 'e' :: rest2 => some (.bool true, rest2)
        | _ => none
      else if c = 'f' then
        match rest with
        | 'a' :: 'l' :: 's' :: 'e' :: rest2 => some (.bool false, rest2)
        | _ => none
      else if c = 'n' then
        match rest with
        | 'u' :: 'l' :: 'l' :: rest2 => some (.null, rest2)
        | _ => none
      else if c = '-' then
        match parsesDigits rest with
        | ([], _) => none
        | (ds, rest2) =>
          if ds.length > 1 ∧ ds.head? = some '0' then none
          else some (.num (-(digitsToNat ds : Int)), rest2)
      else if '0' ≤ c ∧ c ≤ '9' then
        match parsesDigits (c :: rest) with
        | ([], _) => none
        | (ds, rest2) =>
          if ds.length > 1 ∧ ds.head? = some '0' then none
          else some (.num (digitsToNat ds : Int), rest2)
      else none

/-- Parse object members after `{`; `first` is true before the first member. -/
def parsesObjMembers (fuel : Nat) (cs : List Char) (first : Bool)
    (acc : List (String × JVal)) : Option (JVal × List Char) :=
  match fuel with
  | 0 => none
  | fuel + 1 =>
    match skipWs cs with
    | [] => none
    | c :: rest =>
      if c = '\x7d' ∧ first then some (.obj acc.reverse, rest)
      else
        match (if first then some (c :: rest)
               else if c = ',' then some rest
               else if c = '\x7d' then none
               else none) with
        | none => if c = '\x7d' ∧ ¬ first then some (.obj acc.reverse, rest) else none
        | some afterSep =>
          match skipWs afterSep with
          | '"' :: srest =>
            match parsesStringBody (srest.length + 1) srest [] with
            | none => none
            | some (key, afterKey) =>
              match skipWs afterKey with
              | ':' :: afterColon =>
                match parsesVal fuel afterColon with
                | none => none
                | some (v, afterVal) =>
                  parsesObjMembers fuel afterVal false ((key, v) :: acc)
              | _ => none
          | _ => none

/-- Parse array items after `[`; `first` is true before the first item. -/
def parsesArrItems (fuel : Nat) (cs : List Char) (first : Bool)
    (acc : List JVal) : Option (JVal × List Char) :=
  match fuel with
  | 0 => none
  | fuel + 1 =>
    match skipWs cs with
    | [] => none
    | c :: rest =>
      if c = ']' ∧ first then some (.arr acc.reverse, rest)
      else if c = ']' ∧ ¬ first then some (.arr acc.reverse, rest)
      else
        match (if first then some (c :: rest)
               else if c = ',' then some rest
               else none) with
        | none => none
        | some afterSep =>
          match parsesVal fuel afterSep with
          | none => none
          | some (v, afterVal) => parsesArrItems fuel afterVal false (v :: acc)
end

/-- `json.loads(text)` for the modelled JSON fragment: a strict parse of the
whole input, rejecting trailing garbage and, in particular, rejecting
`//` and `/* ... */` comments (which plain JSON does not allow). -/
def parseJsonStrict (text : String) : Option JVal :=
  match parsesVal (2 * text.length + 8) text.data with
  | some (v, rest) => if skipWs rest = [] then some v else none
  | none => none

/-! ### Tool registry — `mcp_servers/__init__.py`

`enabled.txt` denotes the set of its non-comment, non-blank lines;
`get_enabled_servers` / `save_enabled_servers` round-trip that set, so the
side-file state is modelled directly as a `Finset String`. -/

namespace McpServers

/-- `enable_server(name)` (`mcp_servers/__init__.py:110`): when the server
subdirectory exists, insert the name into the enabled set and save; when it
does not, change nothing and report failure. `dirExists` models
`os.path.isdir` on the server directory. Returns the new side-file set and
the boolean result. -/
def enableServer (dirExists : String → Bool) (enabled : Finset String)
    (name : String) : Finset String × Bool :=
  if dirExists name then (insert name enabled, true) else (enabled, false)

/-- `disable_server(name)` (`mcp_servers/__init__.py:122`): remove the name
from the enabled set when present (saving the file), otherwise leave the set
alone; returns `True` either way. -/
def disableServer (enabled : Finset String) (name : String) :
    Finset String × Bool :=
  if name ∈ enabled then (enabled.erase name, true) else (enabled, true)

/-- One directory entry seen by `os.listdir`, with the facts
`get_available_servers` queries about it: whether it is a directory, the
raw text of its `config.json` (when the file exists), and whether
`server.py` exists in it. -/
structure DirEntry where
  name : String
  isDir : Bool
  configJson : Option String
  hasServerPy : Bool

/-- The per-server record built by `get_available_servers`. The `path`
field (an absolute directory path) is omitted; `server_file` is modelled
as `name ++ "/server.py"`. The raw `type` value is kept as a `JVal`
because the descriptor may carry a non-string there. -/
structure ServerInfo where
  serverFile : Option String
  enabled : Bool
  config : JVal
  description : String
  typeV : JVal

/-- Outcome of examining one subdirectory in `get_available_servers`:
kept as a candidate, silently skipped, or an uncaught exception (a
descriptor whose top-level JSON value is not an object makes the
subsequent `config.get` raise, aborting the whole scan). -/
inductive ScanStep where
  | keep (entry : String × ServerInfo)
  | skip
  | raiseErr

/-- The body of the `get_available_servers` loop
(`mcp_servers/__init__.py:69`–`105`) for one directory entry: skip
non-directories and `_`/`.` names, skip entries без `config.json`, parse
the descriptor with strict `json.load` (a parse failure skips the entry:
the `except Exception: continue`), read `type` (default `"stdio"`), and
skip stdio servers lacking `server.py`. -/
def scanOne (enabled : Finset String) (e : DirEntry) : ScanStep :=
  if !e.isDir || strStartsWith e.name "_" || strStartsWith e.name "." then .skip
  else
    match e.configJson with
    | none => .skip
    | some text =>
      match parseJsonStrict text with
      | none => .skip
      | some cfg =>
        match cfg with
        | .obj _ =>
          let typeV := (pyGet cfg "type").getD (.str "stdio")
          if jvalIsStr typeV "stdio" ∧ !e.hasServerPy then .skip
          else
            .keep (e.name,
              { serverFile := if jvalIsStr typeV "stdio" then some (e.name ++ "/server.py") else none,
                enabled := decide (e.name ∈ enabled),
                config := cfg,
                description := (jGetStr cfg "description").getD "",
                typeV := typeV })
        | _ => .raiseErr

/-- `get_available_servers` (`mcp_servers/__init__.py:59`): fold `scanOne`
over the directory listing; `.error ()` models the uncaught exception of a
non-object descriptor aborting the scan. -/
def getAvailableServers (enabled : Finset String) :
    List DirEntry → Except Unit (List (String × ServerInfo))
  | [] => .ok []
  | e :: rest =>
    match scanOne enabled e with
    | .raiseErr => .error ()
    | .skip => getAvailableServers enabled rest
    | .keep entry =>
      match getAvailableServers enabled rest with
      | .ok l => .ok (entry :: l)
      | .error u => .error u

end McpServers

/-! ### Tool server manager — `mcp_servers/mcp_client.py` -/

/-- `MCPTool` (`mcp_client.py:34`). -/
structure MCPTool where
  name : String
  description : String
  inputSchema : JVal
  serverName : String

/-- `MCPServerType` (`mcp_client.py:27`). -/
inductive MCPServerType where
  | stdio
  | streamableHttp
  | sse
deriving DecidableEq

/-- `MCPServerType(value)` on a raw JSON value: a recognised string maps to
its member, anything else raises `ValueError` (modelled as `none`). -/
def mcpTypeOf (v : JVal) : Option MCPServerType :=
  if jvalIsStr v "stdio" then some .stdio
  else if jvalIsStr v "streamableHttp" then some .streamableHttp
  else if jvalIsStr v "sse" then some .sse
  else none

/-- `MCPServerConfig` (`mcp_client.py:43`). `args` elements are JSON values
because `_load_from_directory` puts `info["server_file"]` — possibly
`None` — at the head of the list. -/
structure MCPServerConfig where
  name : String
  serverType : MCPServerType
  description : String
  enabled : Bool
  command : Option String := none
  args : List JVal := []
  env : Option JVal := none
  url : Option String := none
  headers : Option JVal := none

/-- The manager state read by tool dispatch: the flat qualified-name →
tool map and the name → live-connection map. A connection is represented
by its `call_tool` behaviour (local name and serialised arguments to
optional result text). Tool-call argument objects are carried as their
JSON serialisation throughout the embedding. -/
structure MgrState where
  tools : List (String × MCPTool)
  connections : List (String × (String → String → Option String))

/-- Dictionary key membership for the modelled manager maps. -/
def mgrLookupTool (m : MgrState) (toolName : String) : Option MCPTool :=
  (m.tools.find? (fun p => p.1 == toolName)).map (·.2)

/-- Python `s.replace(pat, "", 1)` on character lists: remove the first
occurrence of `pat`, if any. -/
def removeFirst (s pat : List Char) : List Char :=
  if pat = [] then s else go s
where
  go : List Char → List Char
    | [] => []
    | c :: cs => if pat.isPrefixOf (c :: cs) then (c :: cs).drop pat.length else c :: go cs

/-- `MCPManager.call_tool` (`mcp_client.py:786`–`800`): unknown qualified
name → `"工具不存在: <name>"`; owning server not connected →
`"服务器未连接: <server>"`; otherwise strip the first occurrence of
`"<server>_"` from the name and forward to the connection. -/
def mgrCallTool (m : MgrState) (toolName : String) (argsJson : String) :
    Option String :=
  match mgrLookupTool m toolName with
  | none => some ("工具不存在: " ++ toolName)
  | some tool =>
    match (m.connections.find? (fun p => p.1 == tool.serverName)).map (·.2) with
    | none => some ("服务器未连接: " ++ tool.serverName)
    | some conn =>
      conn (String.mk (removeFirst toolName.data (tool.serverName ++ "_").data)) argsJson

/-- One OpenAI-format tool declaration
(`{"type": "function", "function": {...}}`), flattened to the `function`
member that carries all the information. -/
structure OpenAIToolDecl where
  name : String
  description : String := ""
  parameters : JVal := .obj []

/-- `MCPManager.get_openai_tools` (`mcp_client.py:772`). -/
def getOpenaiTools (m : MgrState) : List OpenAIToolDecl :=
  m.tools.map (fun p => ⟨p.2.name, p.2.description, p.2.inputSchema⟩)

/-- The stdio-shaped configuration `_load_from_directory` builds for a
server record (the stdio / fallback branch, `mcp_client.py:681`–`690`). -/
def stdioConfigOf (name : String) (info : McpServers.ServerInfo) : MCPServerConfig :=
  { name := name, serverType := .stdio,
    description := (jGetStr info.config "description").getD "",
    enabled := true,
    command := some ((jGetStr info.config "command").getD "python"),
    args := (match info.serverFile with
             | some f => JVal.str f
             | none => JVal.null) ::
            (match pyGet info.config "args" with
             | some (.arr l) => l
             | _ => []),
    env := pyGet info.config "env" }

/-- `MCPManager._load_from_directory` (`mcp_client.py:659`–`700`): for each
enabled available server read `type` (default `"stdio"`); an unrecognised
value makes `MCPServerType(...)` raise `ValueError`, caught with a fallback
to `STDIO`. A stdio config gets `command` (default `"python"`) and
`args = [server_file] + config args`; an http/sse config gets `url` and
`headers`. All built records carry `enabled=True`. -/
def loadFromDirectory (avail : List (String × McpServers.ServerInfo)) :
    List (String × MCPServerConfig) :=
  avail.filterMap (fun p =>
    let name := p.1
    let info := p.2
    if !info.enabled then none
    else
      let cfg := info.config
      let typeV := (pyGet cfg "type").getD (.str "stdio")
      let serverType := (mcpTypeOf typeV).getD .stdio
      match serverType with
      | .stdio => some (name, stdioConfigOf name info)
      | t =>
        some (name,
          { name := name, serverType := t,
            description := (jGetStr cfg "description").getD "",
            enabled := true,
            url := jGetStr cfg "url",
            headers := pyGet cfg "headers" }))

/-- `MCPManager.start_enabled_servers` (`mcp_client.py:728`): the names for
which a start is attempted — every loaded server whose record is enabled. -/
def startEnabledNames (servers : List (String × MCPServerConfig)) : List String :=
  (servers.filter (fun p => p.2.enabled)).map (·.1)

/-! ### Gemini agentic engine — `gemini_proxy_server.py`

The buffered iteration loop `GeminiProxy.process_request` is embedded as a
fuel recursion, the fuel being `max_iterations - iteration`. Upstream HTTP
traffic is an oracle `iteration ↦ attempt ↦ AttemptResp`; responses do not
depend on the request payload, matching how the loop only feeds the parsed
JSON bodies back into itself. -/

/-- A Gemini `functionCall` part payload. The `args` object is carried as
its JSON serialisation (`json.dumps(fc.get("args", {}), ensure_ascii=False)`
is the only consumer of its structure besides the opaque dispatch). -/
structure GFunctionCall where
  name : String
  argsJson : String

/-- A Gemini `functionResponse` part payload (`name` + `response` dict). -/
structure GFunctionResponse where
  name : String
  response : JVal

/-- One Gemini content part, with the members the proxy inspects:
`text`, `thought`, `functionCall`, `thoughtSignature`, `functionResponse`.
Unknown extra members are not inspected by the engine and are omitted. -/
structure GPart where
  text : Option String := none
  thought : Bool := false
  functionCall : Option GFunctionCall := none
  thoughtSignature : Option String := none
  functionResponse : Option GFunctionResponse := none

/-- A Gemini `content` record (`role` may be absent). -/
structure GContent where
  role : Option String := none
  parts : List GPart := []

/-- A Gemini candidate. -/
structure GCandidate where
  content : GContent := {}
  finishReason : Option String := none

/-- A parsed Gemini response body (`response.json()`), with the members
the proxy reads; `errorInfo` models an `"error"` member of an error body,
kept opaque. -/
structure GJson where
  candidates : List GCandidate := []
  usageMetadata : Option JVal := none
  modelVersion : Option String := none
  responseId : Option String := none
  errorInfo : Option JVal := none

/-- `GeminiProxy._format_tool_call_text` (`gemini_proxy_server.py:156`). -/
def formatToolCallText (toolName args : String) : String :=
  "\n\n「调用工具：" ++ toolName ++ "|内容：" ++ args ++ "」\n\n"

/-- The fixed placeholder payload `{"result": "调用完毕"}` installed by
history rewriting. -/
def callCompletePayload : JVal := .obj [("result", .str "调用完毕")]

/-- Is this content a tool-result message: role `"user"` with at least one
`functionResponse` part (`gemini_proxy_server.py:171`–`179`)? -/
def isToolResultMsg (c : GContent) : Bool :=
  c.role == some "user" && c.parts.any (fun p => p.functionResponse.isSome)

/-- Element at an index, `none` out of range. -/
def contentAt (contents : List GContent) (i : Nat) : Option GContent :=
  contents.get? i

/-- Downward scan of `range(len(contents)-1, n0-1, -1)` for the most recent
tool-result message: returns the greatest index `i ≥ n0` whose message is a
tool result. The argument is the exclusive upper bound of the scan. -/
def scanLastToolResult (contents : List GContent) (n0 : Nat) : Nat → Option Nat
  | 0 => none
  | i + 1 =>
    if n0 ≤ i ∧ ((contentAt contents i).map isToolResultMsg).getD false then some i
    else scanLastToolResult contents n0 i

/-- Index of the last proxy-appended `functionResponse` message, `none` when
there is none (`last_function_response_index = -1`). -/
def lastToolResultIdx (contents : List GContent) (n0 : Nat) : Option Nat :=
  scanLastToolResult contents n0 contents.length

/-- Replace the `response` of a `functionResponse` part with the
placeholder; other parts are untouched. -/
def replaceFRPart (p : GPart) : GPart :=
  match p.functionResponse with
  | some fr => { p with functionResponse := some { fr with response := callCompletePayload } }
  | none => p

/-- Indexed map starting at a given index (the `for i in range(...)`
rewriting loop). -/
def mapWithIndex (f : Nat → α → α) : Nat → List α → List α
  | _, [] => []
  | i, a :: l => f i a :: mapWithIndex f (i + 1) l

/-- `GeminiProxy._replace_old_tool_results` (`gemini_proxy_server.py:160`–
`192`): for every index in `[n0, len)` other than the most recent
tool-result index, replace the `response` payload of every
`functionResponse` part of a `"user"`-role message by
`{"result": "调用完毕"}`; indices below `n0` are untouched. -/
def replaceOldToolResults (contents : List GContent) (n0 : Nat) : List GContent :=
  let lastIdx := lastToolResultIdx contents n0
  mapWithIndex
    (fun i c =>
      if i < n0 then c
      else if lastIdx = some i then c
      else if c.role == some "user" then { c with parts := c.parts.map replaceFRPart }
      else c)
    0 contents

/-- `GeminiProxy._build_final_response_with_accumulated_thoughts`
(`gemini_proxy_server.py:403`–`480`): join the non-blank accumulated
thought texts and then (when present) the newline-joined tool-call
placeholders into a single thought part, followed by the non-thought,
non-`functionCall` parts of the last result; copy `finishReason`
(default `"STOP"`) and the metadata members. -/
def buildFinalResponseWithAccumulatedThoughts (lastResult : GJson)
    (accThoughts accTools : List String) : GJson :=
  let thoughtSections :=
    accThoughts.filter pyStripTruthy ++
    (if accTools ≠ [] then [String.intercalate "\n" accTools] else [])
  let thoughtParts : List GPart :=
    if thoughtSections ≠ [] then
      [{ text := some (String.intercalate "\n\n" thoughtSections), thought := true }]
    else []
  let lastParts : List GPart :=
    match lastResult.candidates with
    | [] => []
    | cand :: _ => cand.content.parts.filter (fun p => !p.thought && p.functionCall.isNone)
  { candidates :=
      [{ content := { role := some "model", parts := thoughtParts ++ lastParts },
         finishReason :=
           match lastResult.candidates with
           | [] => none
           | cand :: _ => some (cand.finishReason.getD "STOP") }],
    usageMetadata := lastResult.usageMetadata,
    modelVersion := lastResult.modelVersion,
    responseId := lastResult.responseId,
    errorInfo := none }

/-- The outcome of one `requests.post` attempt inside
`_make_gemini_request`: a raised timeout, another raised request
exception, or an HTTP response with its status and parsed JSON body. -/
inductive AttemptResp where
  | timeout (msg : String)
  | reqError (msg : String)
  | http (status : Nat) (body : GJson)

/-- Result of `_make_gemini_request_with_retry`: a propagated exception, or
the last response, together with the total number of `requests.post`
attempts made and the list of `time.sleep` durations executed. -/
inductive RetryRes where
  | raisedTimeout (msg : String) (attempts : Nat)
  | raisedReqError (msg : String) (attempts : Nat)
  | got (status : Nat) (body : GJson) (attempts : Nat) (sleeps : List Nat)

/-- The retry loop of `_make_gemini_request_with_retry`
(`gemini_proxy_server.py:368`–`385`): up to `remaining` further attempts,
sleeping `delay` before each, stopping early on a 200. `k` counts attempts
already made. -/
def makeGeminiRequestRetryGo (att : Nat → AttemptResp) (delay : Nat) :
    Nat → Nat → Nat → GJson → List Nat → RetryRes
  | k, 0, s, b, sl => .got s b k sl
  | k, remaining + 1, _, _, sl =>
    let sl2 := sl ++ [delay]
    match att k with
    | .timeout m => .raisedTimeout m (k + 1)
    | .reqError m => .raisedReqError m (k + 1)
    | .http s2 b2 =>
      if s2 = 200 then .got s2 b2 (k + 1) sl2
      else makeGeminiRequestRetryGo att delay (k + 1) remaining s2 b2 sl2

/-- `GeminiProxy._make_gemini_request_with_retry`
(`gemini_proxy_server.py:337`–`387`): one attempt always; when the call is
an internal iteration and the status is not 200, retry up to `maxRetries`
times with a fixed `delay` sleep before each retry, returning the last
response. -/
def makeGeminiRequestWithRetry (maxRetries delay : Nat) (isInternal : Bool)
    (att : Nat → AttemptResp) : RetryRes :=
  match att 0 with
  | .timeout m => .raisedTimeout m 1
  | .reqError m => .raisedReqError m 1
  | .http s b =>
    if isInternal ∧ s ≠ 200 then makeGeminiRequestRetryGo att delay 1 maxRetries s b []
    else .got s b 1 []

/-- The request-scoped context of the buffered loop. `mcpToolNames` models
the keys of `self.mcp_manager.tools` as read by `_is_mcp_tool` when
classifying calls; `toolExec` models `self.mcp_manager.call_tool` as
invoked by `_execute_mcp_tool` at dispatch time. They are separate fields
because the source performs two reads of the shared mutable manager state
(which admin endpoints may mutate between them). `executeMcpTools` models
`execute_mcp_tools and self.mcp_manager`. -/
structure GCtx where
  mcpToolNames : List String
  toolExec : String → String → Option String
  executeMcpTools : Bool

/-- Value returned to the Flask handler by `process_request`. The three
constructors mark the three kinds of return site: an error return carrying
`_status_code`, a normal 200 reply, and the synthetic reply produced at
the iteration cap. -/
inductive GOutput where
  | errResp (status : Nat) (body : GJson)
  | reply (r : GJson)
  | capReply (r : GJson)

/-- Error body for a raised `requests.exceptions.Timeout`
(`gemini_proxy_server.py:882`). -/
def timeoutErrorBody (msg : String) : GJson :=
  { errorInfo := some (.obj [("code", .num 504),
      ("message", .str ("Request timeout: " ++ msg)),
      ("status", .str "DEADLINE_EXCEEDED")]) }

/-- Error body for a raised `requests.exceptions.RequestException`
(`gemini_proxy_server.py:885`). -/
def requestErrorBody (msg : String) : GJson :=
  { errorInfo := some (.obj [("code", .num 503),
      ("message", .str ("Request failed: " ++ msg)),
      ("status", .str "UNAVAILABLE")]) }

/-- The synthetic reply returned at the iteration cap
(`gemini_proxy_server.py:989`–`997`). -/
def geminiMaxIterReply : GJson :=
  { candidates :=
      [{ content := { role := some "model",
                      parts := [{ text := some "[达到最大工具调用迭代次数]" }] },
         finishReason := some "MAX_TOKENS" }] }

/-- Result of one pass of the loop body after a 200 response: either the
loop returns `out` (the `accT`/`accP` fields record the accumulator values
at that return, used by the trace lemmas), or it appends to the working
conversation and continues with updated accumulators. -/
inductive GStepRes where
  | ret (out : GOutput) (accT accP : List String)
  | cont (contents : List GContent) (accT accP : List String)

/-- The thought texts collected from a parts list
(`gemini_proxy_server.py:914`–`916`): parts with a truthy `thought` and a
`text` member. -/
def collectThoughtTexts (parts : List GPart) : List String :=
  parts.filterMap (fun p => if p.thought then p.text else none)

/-- `GeminiProxy._get_function_calls` restricted to the call payloads
(`gemini_proxy_server.py:235`–`246`; the `_part_index` /
`_thought_signature` annotations it attaches are never read afterwards). -/
def getFunctionCalls (parts : List GPart) : List GFunctionCall :=
  parts.filterMap (·.functionCall)

/-- The body of the `process_request` loop after a 200 response
(`gemini_proxy_server.py:895`–`986`): collect thought texts, extract
function calls; with no calls return the accumulated-thoughts reply (or
the raw result when nothing accumulated); with calls record their
placeholders, split manager-owned from client-owned, execute manager-owned
calls appending the model message and a `"user"` message of
`functionResponse` parts (`result or "工具执行失败"`), and continue;
otherwise return the accumulated-thoughts reply. -/
def gStep (ctx : GCtx) (body : GJson) (contents : List GContent)
    (accT accP : List String) : GStepRes :=
  match body.candidates with
  | [] =>
    .ret (.reply (if accT ≠ [] ∨ accP ≠ [] then
      buildFinalResponseWithAccumulatedThoughts body accT accP else body)) accT accP
  | cand :: _ =>
    let parts := cand.content.parts
    let accT2 := accT ++ collectThoughtTexts parts
    let fcs := getFunctionCalls parts
    if fcs.isEmpty then
      .ret (.reply (if accT2 ≠ [] ∨ accP ≠ [] then
        buildFinalResponseWithAccumulatedThoughts body accT2 accP else body)) accT2 accP
    else
      let accP2 := accP ++ fcs.map (fun fc => formatToolCallText fc.name fc.argsJson)
      if ctx.executeMcpTools then
        let mcpCalls := fcs.filter (fun fc => ctx.mcpToolNames.contains fc.name)
        if !mcpCalls.isEmpty then
          let modelMsg : GContent :=
            { role := some (cand.content.role.getD "model"), parts := parts }
          let frMsg : GContent :=
            { role := some "user",
              parts := mcpCalls.map (fun fc =>
                { functionResponse := some
                    { name := fc.name,
                      response := .obj [("result",
                        .str (pyOr (ctx.toolExec fc.name fc.argsJson) "工具执行失败"))] } }) }
          .cont (contents ++ [modelMsg, frMsg]) accT2 accP2
        else
          .ret (.reply (buildFinalResponseWithAccumulatedThoughts body accT2 accP2)) accT2 accP2
      else
        .ret (.reply (buildFinalResponseWithAccumulatedThoughts body accT2 accP2)) accT2 accP2

/-- Configuration values read by the loop, `none` meaning the key is
absent from `CONFIG` so the `CONFIG.get` default applies. -/
structure GConfig where
  maxIterations : Option Nat := none
  apiRetryCount : Option Nat := none
  apiRetryDelay : Option Nat := none

/-- The `while iteration < max_iterations` loop of
`GeminiProxy.process_request` (`gemini_proxy_server.py:865`–`997`), with
fuel `max_iterations - iteration`. Each pass rewrites old tool results,
performs the upstream call with retry enabled exactly when `0 < iter`,
maps raised exceptions to 504/503 error returns and non-200 statuses to a
verbatim error return, and otherwise runs `gStep`. The second component
counts loop passes (upstream iterations). -/
def gGo (cfg : GConfig) (ctx : GCtx) (oracle : Nat → Nat → AttemptResp) (n0 : Nat) :
    Nat → Nat → List GContent → List String → List String → GOutput × Nat
  | 0, _, _, _, _ => (.capReply geminiMaxIterReply, 0)
  | fuel + 1, iter, contents, accT, accP =>
    let contents1 := replaceOldToolResults contents n0
    match makeGeminiRequestWithRetry (cfg.apiRetryCount.getD 2) (cfg.apiRetryDelay.getD 5)
        (decide (0 < iter)) (oracle iter) with
    | .raisedTimeout m _ => (.errResp 504 (timeoutErrorBody m), 1)
    | .raisedReqError m _ => (.errResp 503 (requestErrorBody m), 1)
    | .got status body _ _ =>
      if status ≠ 200 then (.errResp status body, 1)
      else
        match gStep ctx body contents1 accT accP with
        | .ret out _ _ => (out, 1)
        | .cont contents2 accT2 accP2 =>
          let r := gGo cfg ctx oracle n0 fuel (iter + 1) contents2 accT2 accP2
          (r.1, r.2 + 1)

/-- `GeminiProxy.process_request` (`gemini_proxy_server.py:830`–`997`) for
a non-streaming request: cap `CONFIG.get("max_iterations", 100)`, empty
accumulators, `original_contents_length` = the client conversation length. -/
def gProcessRequest (cfg : GConfig) (ctx : GCtx) (oracle : Nat → Nat → AttemptResp)
    (contents0 : List GContent) : GOutput × Nat :=
  gGo cfg ctx oracle contents0.length (cfg.maxIterations.getD 100) 0 contents0 [] []

/-- Ghost trace of the loop: the same recursion as `gGo`, returning the
accumulated thought texts, the accumulated tool-call placeholders and the
last 200 body at the moment the loop returns a normal reply (`none` for
error returns and the iteration cap). -/
def gRunAcc (cfg : GConfig) (ctx : GCtx) (oracle : Nat → Nat → AttemptResp) (n0 : Nat) :
    Nat → Nat → List GContent → List String → List String →
    Option (List String × List String × GJson)
  | 0, _, _, _, _ => none
  | fuel + 1, iter, contents, accT, accP =>
    let contents1 := replaceOldToolResults contents n0
    match makeGeminiRequestWithRetry (cfg.apiRetryCount.getD 2) (cfg.apiRetryDelay.getD 5)
        (decide (0 < iter)) (oracle iter) with
    | .raisedTimeout _ _ => none
    | .raisedReqError _ _ => none
    | .got status body _ _ =>
      if status ≠ 200 then none
      else
        match gStep ctx body contents1 accT accP with
        | .ret _ accT2 accP2 => some (accT2, accP2, body)
        | .cont contents2 accT2 accP2 =>
          gRunAcc cfg ctx oracle n0 fuel (iter + 1) contents2 accT2 accP2

/-! ### DeepSeek agentic engine — `proxy_server.py`

The buffered loop `DeepSeekProxy.process_request` is embedded the same
way. Upstream calls through the OpenAI SDK are an oracle
`iteration ↦ DSResp`; SDK exceptions are out of the modelled behaviour
(they propagate to the Flask handler). Usage accumulation keeps the three
always-present counters; the `hasattr`-guarded detail counters are absent
from the modelled responses and omitted. -/

/-- Accumulated token usage (`total_usage`, `proxy_server.py:594`). -/
structure DSUsage where
  prompt : Nat := 0
  completion : Nat := 0
  total : Nat := 0
deriving DecidableEq

/-- A tool call object returned by the SDK: `index` is `none` when the
object lacks the attribute (the `hasattr(tc, "index")` checks). -/
structure SDKToolCall where
  id : String
  name : String
  arguments : String
  tcType : String := "function"
  index : Option Nat := none
deriving DecidableEq

/-- A tool-call dictionary as stored in the working conversation. -/
structure DictToolCall where
  id : String
  name : String
  arguments : String
  tcType : String
  index : Nat
deriving DecidableEq

/-- The message object of an SDK chat completion choice. -/
structure SDKMessage where
  role : String := "assistant"
  content : Option String := none
  reasoningContent : Option String := none
  toolCalls : Option (List SDKToolCall) := none
deriving DecidableEq

/-- One buffered SDK response: message, finish reason and usage counters. -/
structure DSResp where
  message : SDKMessage
  finishReason : String
  usage : DSUsage := {}
deriving DecidableEq

/-- A message dictionary in the working conversation: `none` fields model
absent keys (`tool_calls` is deleted rather than set to null). -/
structure DSMessage where
  role : String
  content : Option String := none
  reasoningContent : Option String := none
  toolCalls : Option (List DictToolCall) := none
  toolCallId : Option String := none
deriving DecidableEq

instance : Inhabited DSMessage := ⟨⟨"", none, none, none, none⟩⟩

/-- Convert SDK tool calls to dictionaries
(`proxy_server.py:183`–`195`): `index` keeps the object's attribute when
present, else the enumeration position. -/
def convertToolCalls (tcs : List SDKToolCall) : List DictToolCall :=
  ((List.range tcs.length).zip tcs).map
    (fun p => ⟨p.2.id, p.2.name, p.2.arguments, p.2.tcType, p.2.index.getD p.1⟩)

/-- `DeepSeekProxy._message_to_dict` (`proxy_server.py:173`–`197`):
`content` becomes `message.content or ""`; `reasoning_content` and
`tool_calls` are added only when truthy. -/
def messageToDict (m : SDKMessage) : DSMessage :=
  { role := m.role,
    content := some (m.content.getD ""),
    reasoningContent :=
      match m.reasoningContent with
      | some s => if s = "" then none else some s
      | none => none,
    toolCalls :=
      match m.toolCalls with
      | some l => if l.isEmpty then none else some (convertToolCalls l)
      | none => none,
    toolCallId := none }

/-- A flattened tool call (`_flatten_tool_calls`, `proxy_server.py:199`):
the id is dropped. -/
structure FlatToolCall where
  name : String
  arguments : String
  tcType : String
  index : Nat
deriving DecidableEq

/-- `DeepSeekProxy._flatten_tool_calls` on stored dictionaries. -/
def flattenToolCalls (tcs : List DictToolCall) : List FlatToolCall :=
  tcs.map (fun tc => ⟨tc.name, tc.arguments, tc.tcType, tc.index⟩)

/-- `json.dumps` of one flattened tool call, member order `function`
(`name`, `arguments`), `type`, `index`, default separators,
`ensure_ascii=False`. -/
def flatToolCallJson (f : FlatToolCall) : String :=
  "\x7b\"function\": \x7b\"name\": " ++ jsonQuote false f.name ++
  ", \"arguments\": " ++ jsonQuote false f.arguments ++
  "\x7d, \"type\": " ++ jsonQuote false f.tcType ++
  ", \"index\": " ++ toString f.index ++ "\x7d"

/-- `json.dumps({"tool_calls": flattened}, ensure_ascii=False)`
(`proxy_server.py:240`–`241`). -/
def toolCallsJson (fs : List FlatToolCall) : String :=
  "\x7b\"tool_calls\": [" ++ String.intercalate ", " (fs.map flatToolCallJson) ++ "]\x7d"

/-- Pop trailing `"tool"`-role messages (`proxy_server.py:228`–`229`). -/
def dropTrailingToolMsgs (msgs : List DSMessage) : List DSMessage :=
  (msgs.reverse.dropWhile (fun m => m.role == "tool")).reverse

/-- In-place update of one list element, identity when out of range. -/
def listModify (l : List α) (i : Nat) (f : α → α) : List α :=
  match l.get? i with
  | some a => l.set i (f a)
  | none => l

/-- The in-place mutation of the previous assistant message inside
`_merge_assistant_message` (`proxy_server.py:231`–`270`): flatten the old
tool calls into the reasoning text, append the new reasoning (only when it
is non-empty), then either install the converted new tool calls or delete
`tool_calls` and overwrite `content`. -/
def updateAssistant (newReasoning newContent : String)
    (newToolCalls : Option (List SDKToolCall)) (prev : DSMessage) : DSMessage :=
  let oldReasoning := prev.reasoningContent.getD ""
  let oldTCs := prev.toolCalls.getD []
  let oldReasoning2 :=
    if !oldTCs.isEmpty then
      let tj := toolCallsJson (flattenToolCalls oldTCs)
      if oldReasoning ≠ "" then oldReasoning ++ "\n\n" ++ tj else tj
    else oldReasoning
  let prev1 :=
    if newReasoning ≠ "" then
      let combined := if oldReasoning2 ≠ "" then oldReasoning2 ++ "\n\n" ++ newReasoning
                      else newReasoning
      { prev with reasoningContent := some combined }
    else prev
  match newToolCalls with
  | some tcs =>
    if !tcs.isEmpty then { prev1 with toolCalls := some (convertToolCalls tcs) }
    else { prev1 with toolCalls := none, content := some newContent }
  | none => { prev1 with toolCalls := none, content := some newContent }

/-- `DeepSeekProxy._merge_assistant_message` (`proxy_server.py:218`–`270`):
pop trailing tool messages, then update the message at the assistant index
when the index is set and in range. -/
def mergeAssistantMessage (msgs : List DSMessage) (amIdx : Option Nat)
    (newReasoning newContent : String) (newToolCalls : Option (List SDKToolCall)) :
    List DSMessage :=
  let msgs1 := dropTrailingToolMsgs msgs
  match amIdx with
  | none => msgs1
  | some idx =>
    if idx < msgs1.length then
      listModify msgs1 idx (updateAssistant newReasoning newContent newToolCalls)
    else msgs1

/-- Value returned by `DeepSeekProxy.process_request`. The constructors
mark the distinct return sites: the no-tool-calls completion
(`proxy_server.py:657`–`688`), the client-owned-calls return
(`proxy_server.py:718`–`758`), the no-tools return (`proxy_server.py:762`),
the final fallback return (`proxy_server.py:795`), and the synthetic
max-iterations reply (`proxy_server.py:826`). Wall-clock `id`/`created`
members are omitted. -/
inductive DSOutput where
  | completed (content reasoningContent : String) (finishReason : String) (usage : DSUsage)
  | clientCalls (content reasoningContent : String) (toolCalls : List DictToolCall) (usage : DSUsage)
  | clientCallsNoTools (content reasoningContent : String) (toolCalls : List DictToolCall) (usage : DSUsage)
  | clientCallsFallback (content reasoningContent : String) (toolCalls : List DictToolCall) (usage : DSUsage)
  | maxIterations (usage : DSUsage)
deriving DecidableEq

/-- Request-scoped context of the DeepSeek loop, with the manager reads
modelled as in `GCtx`; `combinedTools` is the merged tool list computed
before the loop (`None` when empty), consulted at `proxy_server.py:762`. -/
structure DSCtx where
  mcpToolNames : List String
  toolExec : String → String → Option String
  executeMcpTools : Bool
  combinedTools : Option (List OpenAIToolDecl)

/-- `list(tools) if tools else []` merged with
`self.mcp_manager.get_openai_tools()`, set to `None` when empty
(`DeepSeekProxy.process_request`, `proxy_server.py:580`–`588`, and
identically `process_request_stream`, `proxy_server.py:305`–`313`). -/
def dsCombineTools (clientTools : Option (List OpenAIToolDecl))
    (mgr : Option MgrState) : Option (List OpenAIToolDecl) :=
  let combined :=
    clientTools.getD [] ++ (match mgr with | some m => getOpenaiTools m | none => [])
  if combined.isEmpty then none else some combined

/-- The final message looked up at a return site
(`messages_copy[assistant_msg_index]`); the index is always set and in
range on every reachable return path, the default is for totality only. -/
def finalMsgAt (msgs : List DSMessage) (amIdx : Option Nat) : DSMessage :=
  match amIdx with
  | some i => (msgs.get? i).getD default
  | none => default

/-- The `while iteration < max_iterations` loop of
`DeepSeekProxy.process_request` (`proxy_server.py:596`–`842`), fuel
`max_iterations - iteration`. Each pass: accumulate usage, on the first
pass append the assistant message (recording its index), on later passes
merge into it; return the completion when `tool_calls is None` or the
finish reason is `"stop"`; otherwise dispatch manager-owned calls,
appending a `"tool"` message (`result or "工具执行失败"`) per call and
continuing, or return at the appropriate client-owned site. -/
def dsGo (ctx : DSCtx) (oracle : Nat → DSResp) :
    Nat → Nat → List DSMessage → Option Nat → DSUsage → DSOutput × Nat
  | 0, _, _, _, u => (.maxIterations u, 0)
  | fuel + 1, iter, msgs, amIdx, u =>
    let resp := oracle iter
    let u2 : DSUsage := ⟨u.prompt + resp.usage.prompt,
                         u.completion + resp.usage.completion,
                         u.total + resp.usage.total⟩
    let newReasoning := resp.message.reasoningContent.getD ""
    let newContent := resp.message.content.getD ""
    let st :=
      if iter = 0 then (msgs ++ [messageToDict resp.message], some msgs.length)
      else (mergeAssistantMessage msgs amIdx newReasoning newContent resp.message.toolCalls,
            amIdx)
    let msgs2 := st.1
    let amIdx2 := st.2
    if resp.message.toolCalls = none ∨ resp.finishReason = "stop" then
      let fm := finalMsgAt msgs2 amIdx2
      (.completed (fm.content.getD "") (fm.reasoningContent.getD "") resp.finishReason u2, 1)
    else
      let tcs := (resp.message.toolCalls.getD [])
      let fallthroughOut : DSOutput × Nat :=
        let fm := finalMsgAt msgs2 amIdx2
        if ¬ tcs.isEmpty ∧ ctx.combinedTools.isNone then
          (.clientCallsNoTools (fm.content.getD "") (fm.reasoningContent.getD "")
            (fm.toolCalls.getD []) u2, 1)
        else
          (.clientCallsFallback (fm.content.getD "") (fm.reasoningContent.getD "")
            (fm.toolCalls.getD []) u2, 1)
      if ¬ tcs.isEmpty ∧ ctx.executeMcpTools then
        let mcpCalls := tcs.filter (fun tc => ctx.mcpToolNames.contains tc.name)
        let nonMcpCalls := tcs.filter (fun tc => !(ctx.mcpToolNames.contains tc.name))
        if ¬ mcpCalls.isEmpty then
          let toolMsgs := mcpCalls.map (fun tc =>
            ({ role := "tool",
               content := some (pyOr (ctx.toolExec tc.name tc.arguments) "工具执行失败"),
               toolCallId := some tc.id } : DSMessage))
          let r := dsGo ctx oracle fuel (iter + 1) (msgs2 ++ toolMsgs) amIdx2 u2
          (r.1, r.2 + 1)
        else if ¬ nonMcpCalls.isEmpty then
          let fm := finalMsgAt msgs2 amIdx2
          (.clientCalls (fm.content.getD "") (fm.reasoningContent.getD "")
            (convertToolCalls nonMcpCalls) u2, 1)
        else fallthroughOut
      else fallthroughOut

/-- `DeepSeekProxy.process_request` (`proxy_server.py:559`–`842`): the
iteration cap is the hard-coded literal `max_iterations = 10`
(`proxy_server.py:592`; the streaming loop at `proxy_server.py:317` uses
the same literal). -/
def dsProcessRequest (ctx : DSCtx) (oracle : Nat → DSResp)
    (messages : List DSMessage) : DSOutput × Nat :=
  dsGo ctx oracle 10 0 messages none {}

/-! ### Transport adapter `call_tool` reply handling

The three adapters' `call_tool` methods (`MCPStdioConnection.call_tool`,
`mcp_client.py:419`–`436`; `MCPHttpConnection.call_tool`,
`mcp_client.py:231`–`249`; `MCPSSEConnection.call_tool`,
`mcp_client.py:615`–`633`) share a textually identical postlude that turns
the JSON-RPC reply into the returned text; only the transport used to
obtain the reply differs. The shared postlude is embedded once. -/

/-- Is the value a JSON object? -/
def isObjJ (j : JVal) : Bool :=
  match j with
  | .obj _ => true
  | _ => false

/-- `"key" in value` for a JSON object. -/
def pyHasKey (j : JVal) (k : String) : Bool :=
  (pyGet j k).isSome

/-- One pass of the `text_parts` accumulation loop: append
`item.get("text", "")` (whatever value that is) when the item's `type`
member equals `"text"`. -/
def textPartsStep (acc : List JVal) (it : JVal) : List JVal :=
  if (match pyGet it "type" with | some v => jvalIsStr v "text" | none => false) then
    acc ++ [(pyGet it "text").getD (.str "")]
  else acc

/-- The `text_parts` accumulation loop, in arrival order. -/
def collectTextParts (items : List JVal) : List JVal :=
  items.foldl textPartsStep []

/-- All-strings projection; `none` when some element is not a string
(`"\n".join` would raise `TypeError` on it). -/
def asStrings : List JVal → Option (List String)
  | [] => some []
  | .str s :: rest => (asStrings rest).map (s :: ·)
  | _ :: _ => none

/-- The shared `call_tool` postlude on the reply returned by
`_send_request`. A reply with a truthy dict carrying `result`: collect the
`type == "text"` content texts; return their `"\n"` join when any were
collected, else `json.dumps(content)` (default `ensure_ascii=True`).
A reply carrying `error`: return `"错误: " + error.get("message", "未知错误")`.
Anything else (including `None` and falsy dicts): return `None`.
`.error ()` models the uncaught exceptions raised on replies outside the
JSON-RPC shape (non-dict `result` or `error`, non-list `content`, non-dict
content items, non-string text fragments). -/
def callToolFromReply (resp : Option JVal) : Except Unit (Option String) :=
  match resp with
  | none => .ok none
  | some r =>
    if pyTruthy r && pyHasKey r "result" then
      match pyGet r "result" with
      | some (.obj resMembers) =>
        let contentV := (pyGet (.obj resMembers) "content").getD (.arr [])
        match contentV with
        | .arr items =>
          if items.all isObjJ then
            let textVals := collectTextParts items
            if textVals.isEmpty then .ok (some (jvalDump true contentV))
            else
              match asStrings textVals with
              | some strs => .ok (some (String.intercalate "\n" strs))
              | none => .error ()
          else .error ()
        | .obj [] => .ok (some (jvalDump true contentV))
        | _ => .error ()
      | some _ => .error ()
      | none => .ok none
    else if pyTruthy r && pyHasKey r "error" then
      match pyGet r "error" with
      | some (.obj errMembers) =>
        .ok (some ("错误: " ++
          (match pyGet (.obj errMembers) "message" with
           | some (.str s) => s
           | some v => jvalDump false v
           | none => "未知错误")))
      | some _ => .error ()
      | none => .ok none
    else .ok none

/-- The reply of a successful `tools/call` whose result carries the given
content items. -/
def resultReply (items : List JVal) : Option JVal :=
  some (.obj [("result", .obj [("content", .arr items)])])

/-- The reply of a failed `tools/call` carrying the given error object. -/
def errorReply (errMembers : List (String × JVal)) : Option JVal :=
  some (.obj [("error", .obj errMembers)])

/-- Specification-level extraction of the text fragments: the `text`
string of every content item of type `"text"`, in order (an absent `text`
member contributes the empty string, as `item.get("text", "")` does). -/
def specTextFragments (items : List JVal) : List String :=
  items.filterMap (fun it =>
    match pyGet it "type" with
    | some (.str "text") =>
      match pyGet it "text" with
      | some (.str s) => some s
      | some _ => none
      | none => some ""
    | _ => none)

/-! ### Gemini tool-list merging -/

/-- One Gemini function declaration (the `parameters` member is added only
when the tool's input schema is truthy). -/
structure GFuncDecl where
  name : String
  description : String := ""
  parameters : Option JVal := none

/-- One entry of the Gemini `tools` list; the client entries handled by a
claim are of the `functionDeclarations` shape. -/
structure GToolEntry where
  functionDeclarations : List GFuncDecl

/-- `GeminiProxy._get_mcp_tools_as_gemini_format`
(`gemini_proxy_server.py:260`–`277`). -/
def getMcpToolsAsGeminiFormat (m : MgrState) : List GToolEntry :=
  let decls := m.tools.map (fun p =>
    ({ name := p.2.name, description := p.2.description,
       parameters := if pyTruthy p.2.inputSchema then some p.2.inputSchema else none } : GFuncDecl))
  if decls.isEmpty then [] else [⟨decls⟩]

/-- The Gemini tool-list merge (`GeminiProxy.process_request`,
`gemini_proxy_server.py:845`–`851`, and identically
`process_request_stream`, `gemini_proxy_server.py:496`–`502`). -/
def gCombineTools (clientTools : Option (List GToolEntry))
    (mgr : Option MgrState) : Option (List GToolEntry) :=
  let combined :=
    clientTools.getD [] ++ (match mgr with | some m => getMcpToolsAsGeminiFormat m | none => [])
  if combined.isEmpty then none else some combined

/-- The qualified names of the manager tools (`self.mcp_manager.tools`
values), `[]` when there is no manager. -/
def mgrToolNames (mgr : Option MgrState) : List String :=
  match mgr with
  | some m => m.tools.map (fun p => p.2.name)
  | none => []

/-- All function names declared by a Gemini tool list. -/
def gDeclaredNames (tools : Option (List GToolEntry)) : List String :=
  (tools.getD []).flatMap (fun e => e.functionDeclarations.map (·.name))

/-! ### Occurrence-order predicate used to state trace-order claims -/

/-- Does `pat` occur in `s` starting at position `i`? -/
def occursAtB (s pat : List Char) (i : Nat) : Bool :=
  pat.isPrefixOf (s.drop i)

/-- Do the fragments occur in `s`, in the given order, at non-overlapping
positions at or after `start`? -/
def occursInOrderFrom (s : List Char) : Nat → List (List Char) → Bool
  | _, [] => true
  | start, f :: fs =>
    (List.range (s.length + 1)).any
      (fun i => start ≤ i && occursAtB s f i && occursInOrderFrom s (i + f.length) fs)

/-! ### Concrete inputs used by counterexamples and witnesses -/

/-- Iteration-0 body of the ordering counterexample: a thought `"A"`
followed by a call of the manager tool `srv_t`. -/
def c1Body0 : GJson :=
  { candidates := [{ content := { role := some "model", parts :=
      [{ text := some "A", thought := true },
       { functionCall := some ⟨"srv_t", "\x7b\x7d"⟩ }] } }] }

/-- Iteration-1 body of the ordering counterexample: a thought `"B"` and
the final visible text, no tool calls. -/
def c1Body1 : GJson :=
  { candidates := [{ content := { role := some "model", parts :=
      [{ text := some "B", thought := true },
       { text := some "done" }] }, finishReason := some "STOP" }] }

/-- Upstream oracle of the ordering counterexample. -/
def c1Oracle : Nat → Nat → AttemptResp :=
  fun i _ => if i = 0 then .http 200 c1Body0 else .http 200 c1Body1

/-- Engine context of the ordering counterexample: `srv_t` is a live
manager tool whose execution succeeds. -/
def c1Ctx : GCtx := ⟨["srv_t"], fun _ _ => some "ok", true⟩

/-- An upstream response that always issues one manager-owned tool call. -/
def c2ToolResp : DSResp :=
  { message := { content := none, reasoningContent := some "r",
                 toolCalls := some [⟨"id1", "srv_t", "\x7b\x7d", "function", some 0⟩] },
    finishReason := "tool_calls", usage := ⟨1, 1, 2⟩ }

/-- A final upstream response with no tool calls. -/
def c2FinalResp : DSResp :=
  { message := { content := some "done" }, finishReason := "stop", usage := ⟨1, 1, 2⟩ }

/-- Oracle of the iteration-cap counterexample: tool calls on the first
ten iterations, then a final answer the engine never reaches. -/
def c2Oracle : Nat → DSResp :=
  fun i => if i < 10 then c2ToolResp else c2FinalResp

/-- DeepSeek engine context of the iteration-cap counterexample. -/
def c2Ctx : DSCtx := ⟨["srv_t"], fun _ _ => some "ok", true, none⟩

/-- Client history message of the history-rewriting witness. -/
def c4UserMsg : GContent :=
  { role := some "user", parts := [{ text := some "hi" }] }

/-- An older proxy-appended tool-result message of the witness. -/
def c4FrMsg1 : GContent :=
  { role := some "user",
    parts := [{ functionResponse := some ⟨"t", .obj [("result", .str "old1")]⟩ }] }

/-- The most recent proxy-appended tool-result message of the witness. -/
def c4FrMsg2 : GContent :=
  { role := some "user",
    parts := [{ functionResponse := some ⟨"t", .obj [("result", .str "old2")]⟩ }] }

/-- Working conversation of the history-rewriting witness
(`N₀ = 1`: one client message, two proxy-appended tool results). -/
def c4Contents : List GContent := [c4UserMsg, c4FrMsg1, c4FrMsg2]

/-! ## Theorems settling the claims -/

/-- C9 counterexample: starting from a side-file whose enabled set is
`{"alpha"}` (with the server directory present), `enable("alpha")`
followed by `disable("alpha")` leaves the enabled set empty — not equal
to what it was before the pair of operations. -/
theorem c9_enable_disable_not_noop :
    (McpServers.disableServer
      (McpServers.enableServer (fun _ => true) {"alpha"} "alpha").1 "alpha").1 =
      (∅ : Finset String) ∧
    ({"alpha"} : Finset String) ≠ (∅ : Finset String) := by
  constructor
  · decide
  · decide

/-- C9 (amended): `enable(name); disable(name)` restores the side-file's
enabled set exactly when `name` was not already enabled; when it was, the
pair removes it. -/
theorem c9_enable_disable_round_trip (dirExists : String → Bool)
    (enabled : Finset String) (name : String) :
    (McpServers.disableServer
      (McpServers.enableServer dirExists enabled name).1 name).1 = enabled ↔
      name ∉ enabled := by
  have he : (McpServers.enableServer dirExists enabled name).1 =
      if dirExists name then insert name enabled else enabled := by
    unfold McpServers.enableServer
    split <;> rfl
  have hdis : ∀ s : Finset String, (McpServers.disableServer s name).1 =
      if name ∈ s then s.erase name else s := by
    intro s
    unfold McpServers.disableServer
    split <;> rfl
  rw [he, hdis]
  by_cases hd : dirExists name = true
  · rw [if_pos hd, if_pos (Finset.mem_insert_self name enabled)]
    constructor
    · intro h hn
      have hni : name ∉ (insert name enabled).erase name := Finset.not_mem_erase name _
      rw [h] at hni
      exact hni hn
    · intro hn
      exact Finset.erase_insert hn
  · rw [if_neg hd]
    by_cases hn : name ∈ enabled
    · rw [if_pos hn]
      constructor
      · intro h
        exact absurd hn (Finset.erase_eq_self.mp h)
      · intro h
        exact absurd hn h
    · rw [if_neg hn]
      exact ⟨fun _ => hn, fun _ => rfl⟩


/-- A skipped directory entry contributes nothing to the scan and does not
disturb the remaining entries. -/
theorem getAvailableServers_skip_mid (enabled : Finset String)
    (e : McpServers.DirEntry) (h : McpServers.scanOne enabled e = .skip) :
    ∀ pre post, McpServers.getAvailableServers enabled (pre ++ e :: post) =
      McpServers.getAvailableServers enabled (pre ++ post) := by
  intro pre
  induction pre with
  | nil =>
    intro post
    simp only [List.nil_append, McpServers.getAvailableServers, h]
  | cons a pre ih =>
    intro post
    simp only [List.cons_append, McpServers.getAvailableServers, List.append_eq]
    cases hsc : McpServers.scanOne enabled a <;> simp only [List.append_eq, ih]

/-- `parsesVal` rejects any input whose first non-whitespace character is
`/` (the start of a `//` or `/* ... */` comment). -/
theorem parsesVal_slash (fuel : Nat) (cs l : List Char)
    (h : skipWs cs = '/' :: l) : parsesVal fuel cs = none := by
  cases fuel with
  | zero => rfl
  | succ fuel =>
    unfold parsesVal
    rw [h]
    rfl

/-- C7 counterexample: a descriptor that is valid JSON except for a
leading `//` comment yields no candidate server (the claim asserts it
still would), while the identical descriptor without the comment yields
one. -/
theorem c7_comment_descriptor_not_candidate :
    McpServers.getAvailableServers ∅
      [⟨"s1", true, some "// c\n\x7b\"type\": \"stdio\"\x7d", true⟩] = .ok [] ∧
    (∃ info, McpServers.getAvailableServers ∅
      [⟨"s1", true, some "\x7b\"type\": \"stdio\"\x7d", true⟩] = .ok [("s1", info)]) := by
  constructor
  · rfl
  · exact ⟨_, rfl⟩

/-- C7 (amended): descriptor parsing is strict JSON — a descriptor whose
first non-whitespace character starts a `//` or `/* ... */` comment fails
to parse and that server is skipped; and a skipped descriptor (parse
failure included) skips only that server, leaving the scan of the
remaining subdirectories unchanged. -/
theorem c7_strict_parse_and_skip_isolation :
    (∀ (enabled : Finset String) (e : McpServers.DirEntry) (text : String) (l : List Char),
      e.configJson = some text → skipWs text.data = '/' :: l →
      McpServers.scanOne enabled e = .skip) ∧
    (∀ (enabled : Finset String) (e : McpServers.DirEntry),
      McpServers.scanOne enabled e = .skip →
      ∀ pre post, McpServers.getAvailableServers enabled (pre ++ e :: post) =
        McpServers.getAvailableServers enabled (pre ++ post)) := by
  constructor
  · intro enabled e text l hcfg hslash
    unfold McpServers.scanOne
    by_cases hskip : (!e.isDir || strStartsWith e.name "_" || strStartsWith e.name ".") = true
    · rw [if_pos hskip]
    · have hparse : parseJsonStrict text = none := by
        unfold parseJsonStrict
        rw [parsesVal_slash _ _ _ hslash]
      rw [if_neg hskip]
      simp only [hcfg, hparse]
  · intro enabled e h pre post
    exact getAvailableServers_skip_mid enabled e h pre post

/-- C7 amended-claim witness: a concrete comment-bearing descriptor is
skipped, and dropping it from a concrete listing leaves the other server's
scan result unchanged. -/
theorem c7_witness :
    McpServers.scanOne ∅ ⟨"bad", true, some "// x\n\x7b\x7d", true⟩ = .skip ∧
    McpServers.getAvailableServers ∅
      [⟨"bad", true, some "// x\n\x7b\x7d", true⟩,
       ⟨"s1", true, some "\x7b\"type\": \"stdio\"\x7d", true⟩] =
    McpServers.getAvailableServers ∅
      [⟨"s1", true, some "\x7b\"type\": \"stdio\"\x7d", true⟩] := by
  have h1 := (c7_strict_parse_and_skip_isolation.1) ∅
    ⟨"bad", true, some "// x\n\x7b\x7d", true⟩ "// x\n\x7b\x7d" ("/ x\n\x7b\x7d".data) rfl rfl
  refine ⟨h1, ?_⟩
  have h2 := (c7_strict_parse_and_skip_isolation.2) ∅
    ⟨"bad", true, some "// x\n\x7b\x7d", true⟩ h1 []
    [⟨"s1", true, some "\x7b\"type\": \"stdio\"\x7d", true⟩]
  simpa using h2

/-- C5 counterexample: with a client declaration named `a_b` and a live
manager tool of the same qualified name, the list sent upstream carries
the name twice — the claimed deduplication (client wins) does not happen. -/
theorem c5_duplicate_names_sent :
    ((dsCombineTools (some [⟨"a_b", "", .obj []⟩])
        (some ⟨[("a_b", ⟨"a_b", "d", .obj [], "a"⟩)], []⟩)).getD []).map
      OpenAIToolDecl.name = ["a_b", "a_b"] ∧
    ¬ (((dsCombineTools (some [⟨"a_b", "", .obj []⟩])
        (some ⟨[("a_b", ⟨"a_b", "d", .obj [], "a"⟩)], []⟩)).getD []).map
      OpenAIToolDecl.name).Nodup := by
  constructor
  · rfl
  · intro h
    have : (["a_b", "a_b"] : List String).Nodup := by
      have e : ((dsCombineTools (some [⟨"a_b", "", .obj []⟩])
          (some ⟨[("a_b", ⟨"a_b", "d", .obj [], "a"⟩)], []⟩)).getD []).map
        OpenAIToolDecl.name = ["a_b", "a_b"] := rfl
      rw [e] at h
      exact h
    simp at this

/-- The names of the manager tools in OpenAI format are the tool names. -/
theorem getOpenaiTools_names (m : MgrState) :
    (getOpenaiTools m).map OpenAIToolDecl.name = m.tools.map (fun p => p.2.name) := by
  unfold getOpenaiTools
  rw [List.map_map]
  rfl

/-- The function names declared by the Gemini-format manager entry. -/
theorem gMcpDeclaredNames (m : MgrState) :
    (getMcpToolsAsGeminiFormat m).flatMap
      (fun e => e.functionDeclarations.map GFuncDecl.name) =
      m.tools.map (fun p => p.2.name) := by
  unfold getMcpToolsAsGeminiFormat
  by_cases h : (m.tools.map (fun p =>
      ({ name := p.2.name, description := p.2.description,
         parameters := if pyTruthy p.2.inputSchema then some p.2.inputSchema else none } : GFuncDecl))).isEmpty = true
  · rw [if_pos h]
    have : m.tools = [] := List.map_eq_nil_iff.mp (List.isEmpty_iff.mp h)
    simp [this]
  · rw [if_neg h]
    simp only [List.flatMap_cons, List.flatMap_nil, List.append_nil, List.map_map]
    rfl

/-- C5 (amended): the tool list sent upstream is the client-supplied list
followed by the live manager tools, concatenated without deduplication
(`None` when both are empty); consequently a name is sent exactly when the
client declares it or the manager owns it, and a colliding name appears in
both positions. Stated for the OpenAI-dialect merge and for the
Gemini-dialect merge. -/
theorem c5_tool_list_is_concatenation :
    (∀ (clientTools : Option (List OpenAIToolDecl)) (mgr : Option MgrState),
      ((dsCombineTools clientTools mgr).getD []).map OpenAIToolDecl.name =
        (clientTools.getD []).map OpenAIToolDecl.name ++ mgrToolNames mgr ∧
      (∀ nm, nm ∈ ((dsCombineTools clientTools mgr).getD []).map OpenAIToolDecl.name ↔
        nm ∈ (clientTools.getD []).map OpenAIToolDecl.name ∨ nm ∈ mgrToolNames mgr)) ∧
    (∀ (clientTools : Option (List GToolEntry)) (mgr : Option MgrState),
      gDeclaredNames (gCombineTools clientTools mgr) =
        gDeclaredNames clientTools ++ mgrToolNames mgr) := by
  constructor
  · intro ct mgr
    have key : ((dsCombineTools ct mgr).getD []).map OpenAIToolDecl.name =
        (ct.getD []).map OpenAIToolDecl.name ++ mgrToolNames mgr := by
      unfold dsCombineTools
      by_cases hc : (ct.getD [] ++
          (match mgr with | some m => getOpenaiTools m | none => [])).isEmpty = true
      · rw [if_pos hc]
        have hnil := List.isEmpty_iff.mp hc
        rcases List.append_eq_nil.mp hnil with ⟨h1, h2⟩
        rw [h1]
        cases mgr with
        | none => simp [mgrToolNames]
        | some m =>
          have h2x : getOpenaiTools m = [] := h2
          have : m.tools = [] := by
            have hn := getOpenaiTools_names m
            rw [h2x] at hn
            exact List.map_eq_nil_iff.mp hn.symm
          simp [mgrToolNames, this]
      · rw [if_neg hc]
        simp only [Option.getD_some, List.map_append]
        congr 1
        cases mgr with
        | none => simp [mgrToolNames]
        | some m => exact getOpenaiTools_names m
    refine ⟨key, fun nm => ?_⟩
    rw [key]
    exact List.mem_append
  · intro ct mgr
    unfold gCombineTools
    by_cases hc : (ct.getD [] ++
        (match mgr with | some m => getMcpToolsAsGeminiFormat m | none => [])).isEmpty = true
    · have hnil := List.isEmpty_iff.mp hc
      rcases List.append_eq_nil.mp hnil with ⟨h1, h2⟩
      rw [if_pos hc]
      cases mgr with
      | none => simp [gDeclaredNames, mgrToolNames, h1]
      | some m =>
        have h2x : getMcpToolsAsGeminiFormat m = [] := h2
        have hm : m.tools = [] := by
          have hn := gMcpDeclaredNames m
          rw [h2x] at hn
          simp only [List.flatMap_nil] at hn
          exact List.map_eq_nil_iff.mp hn.symm
        simp [gDeclaredNames, mgrToolNames, h1, hm]
    · rw [if_neg hc]
      simp only [gDeclaredNames, Option.getD_some, List.flatMap_append]
      congr 1
      cases mgr with
      | none => simp [mgrToolNames]
      | some m => exact gMcpDeclaredNames m


/-- C10: an enabled server whose descriptor declares an unrecognised
transport type string is not skipped: `_load_from_directory` falls back to
`stdio` (the caught `ValueError`), builds a stdio configuration for it
(`command` defaulting to `"python"`, `args` headed by the registry's
`server_file` value), and `start_enabled_servers` still attempts to start
it. -/
theorem c10_unknown_transport_falls_back_to_stdio
    (avail : List (String × McpServers.ServerInfo)) (name : String)
    (info : McpServers.ServerInfo) (t : String)
    (hmem : (name, info) ∈ avail) (hen : info.enabled = true)
    (htype : pyGet info.config "type" = some (.str t))
    (h1 : t ≠ "stdio") (h2 : t ≠ "streamableHttp") (h3 : t ≠ "sse") :
    mcpTypeOf (.str t) = none ∧
    (name, stdioConfigOf name info) ∈ loadFromDirectory avail ∧
    (stdioConfigOf name info).serverType = .stdio ∧
    (stdioConfigOf name info).enabled = true ∧
    (stdioConfigOf name info).command =
      some ((jGetStr info.config "command").getD "python") ∧
    name ∈ startEnabledNames (loadFromDirectory avail) := by
  have hnone : mcpTypeOf (.str t) = none := by
    unfold mcpTypeOf
    simp only [jvalIsStr]
    rw [if_neg (by simp [h1]), if_neg (by simp [h2]), if_neg (by simp [h3])]
  have hload : (name, stdioConfigOf name info) ∈ loadFromDirectory avail := by
    apply List.mem_filterMap.mpr
    refine ⟨(name, info), hmem, ?_⟩
    simp only [loadFromDirectory, hen, Bool.not_true, Bool.false_eq_true, if_false]
    rw [htype]
    simp only [Option.getD_some, hnone, Option.getD_none]
  refine ⟨hnone, hload, rfl, rfl, rfl, ?_⟩
  apply List.mem_map.mpr
  refine ⟨(name, stdioConfigOf name info), ?_, rfl⟩
  apply List.mem_filter.mpr
  exact ⟨hload, rfl⟩

/-- C10 witness: a concrete enabled server whose descriptor declares
`"type": "websocket"` is loaded as a stdio config and queued for start. -/
theorem c10_witness :
    ((("ws1",
        ({ serverFile := some "ws1/server.py", enabled := true,
           config := .obj [("type", .str "websocket")],
           description := "", typeV := .str "websocket" } : McpServers.ServerInfo)) ∈
      ([("ws1",
        ({ serverFile := some "ws1/server.py", enabled := true,
           config := .obj [("type", .str "websocket")],
           description := "", typeV := .str "websocket" } : McpServers.ServerInfo))])) ∧
     ("websocket" : String) ≠ "stdio") ∧
    mcpTypeOf (.str "websocket") = none ∧
    ("ws1", stdioConfigOf "ws1"
        { serverFile := some "ws1/server.py", enabled := true,
          config := .obj [("type", .str "websocket")],
          description := "", typeV := .str "websocket" }) ∈
      loadFromDirectory
        [("ws1",
          { serverFile := some "ws1/server.py", enabled := true,
            config := .obj [("type", .str "websocket")],
            description := "", typeV := .str "websocket" })] ∧
    (stdioConfigOf "ws1"
        { serverFile := some "ws1/server.py", enabled := true,
          config := .obj [("type", .str "websocket")],
          description := "", typeV := .str "websocket" }).serverType = .stdio ∧
    (stdioConfigOf "ws1"
        { serverFile := some "ws1/server.py", enabled := true,
          config := .obj [("type", .str "websocket")],
          description := "", typeV := .str "websocket" }).enabled = true ∧
    (stdioConfigOf "ws1"
        { serverFile := some "ws1/server.py", enabled := true,
          config := .obj [("type", .str "websocket")],
          description := "", typeV := .str "websocket" }).command =
      some ((jGetStr (.obj [("type", .str "websocket")]) "command").getD "python") ∧
    "ws1" ∈ startEnabledNames (loadFromDirectory
        [("ws1",
          { serverFile := some "ws1/server.py", enabled := true,
            config := .obj [("type", .str "websocket")],
            description := "", typeV := .str "websocket" })]) := by
  refine ⟨⟨List.mem_singleton.mpr rfl, by decide⟩, ?_⟩
  exact c10_unknown_transport_falls_back_to_stdio _ "ws1" _ "websocket"
    (List.mem_singleton.mpr rfl) rfl rfl
    (by decide) (by decide) (by decide)

/-- `mapWithIndex` preserves length. -/
theorem mapWithIndex_length (f : Nat → α → α) :
    ∀ (s : Nat) (l : List α), (mapWithIndex f s l).length = l.length := by
  intro s l
  induction l generalizing s with
  | nil => rfl
  | cons a l ih => simp [mapWithIndex, ih]

/-- `mapWithIndex` element access. -/
theorem mapWithIndex_get? (f : Nat → α → α) :
    ∀ (l : List α) (s i : Nat),
      (mapWithIndex f s l).get? i = (l.get? i).map (f (s + i)) := by
  intro l
  induction l with
  | nil => intro s i; rfl
  | cons a l ih =>
    intro s i
    cases i with
    | zero => rfl
    | succ i =>
      simp only [mapWithIndex, List.get?_cons_succ, ih (s + 1) i]
      have harith : s + 1 + i = s + (i + 1) := by omega
      rw [harith]

/-- C4: before each upstream call, history rewriting preserves the list
length, leaves every message at an index below `N₀` (and the most recent
tool-result message) byte-for-byte unchanged, and replaces the
`functionResponse` payload of every other tool-result message at an index
`≥ N₀` with the fixed placeholder `{"result": "调用完毕"}` while keeping
its role and its number of parts. -/
theorem c4_history_rewriting (contents : List GContent) (n0 : Nat) :
    (replaceOldToolResults contents n0).length = contents.length ∧
    (∀ i, i < n0 → (replaceOldToolResults contents n0).get? i = contents.get? i) ∧
    (∀ i, lastToolResultIdx contents n0 = some i →
      (replaceOldToolResults contents n0).get? i = contents.get? i) ∧
    (∀ i c, n0 ≤ i → contents.get? i = some c →
      lastToolResultIdx contents n0 ≠ some i →
      isToolResultMsg c = true →
      ∃ c2, (replaceOldToolResults contents n0).get? i = some c2 ∧
        c2.role = c.role ∧ c2.parts.length = c.parts.length ∧
        ∀ p ∈ c2.parts, ∀ fr, p.functionResponse = some fr →
          fr.response = callCompletePayload) := by
  refine ⟨mapWithIndex_length _ _ _, ?_, ?_, ?_⟩
  · intro i hi
    rw [replaceOldToolResults, mapWithIndex_get? _ contents 0 i]
    cases hc : contents.get? i with
    | none => rfl
    | some c =>
      simp only [Option.map_some']
      rw [if_pos (by omega)]
  · intro i hlast
    rw [replaceOldToolResults, mapWithIndex_get? _ contents 0 i]
    cases hc : contents.get? i with
    | none => rfl
    | some c =>
      simp only [Option.map_some']
      by_cases hi : 0 + i < n0
      · rw [if_pos hi]
      · rw [if_neg hi, if_pos (by simp only [Nat.zero_add]; exact hlast)]
  · intro i c hn0 hc hlast htool
    rw [replaceOldToolResults, mapWithIndex_get? _ contents 0 i]
    rw [hc]
    simp only [Option.map_some']
    rw [if_neg (by omega)]
    rw [if_neg (by simp only [Nat.zero_add]; exact hlast)]
    have hrole : (c.role == some "user") = true := by
      simp only [isToolResultMsg, Bool.and_eq_true] at htool
      exact htool.1
    rw [if_pos hrole]
    have hfrp : ∀ q : GPart, (replaceFRPart q).functionResponse =
        q.functionResponse.map (fun fr => { fr with response := callCompletePayload }) := by
      intro q
      unfold replaceFRPart
      cases hq2 : q.functionResponse with
      | none => simp [hq2]
      | some fr0 => simp [hq2]
    refine ⟨_, rfl, rfl, by exact List.length_map _ _, ?_⟩
    intro p hp fr hfr
    rcases List.mem_map.mp hp with ⟨q, hq, hpq⟩
    subst hpq
    rw [hfrp q] at hfr
    cases hq2 : q.functionResponse with
    | none => rw [hq2] at hfr; simp at hfr
    | some fr0 =>
      rw [hq2] at hfr
      simp only [Option.map_some', Option.some.injEq] at hfr
      rw [← hfr]

/-- C4 witness: on a concrete conversation with one client message and two
proxy-appended tool results, rewriting keeps the client prefix and the most
recent tool result untouched and replaces the payload of the older one. -/
theorem c4_witness :
    (replaceOldToolResults c4Contents 1).length = c4Contents.length ∧
    (replaceOldToolResults c4Contents 1).get? 0 = c4Contents.get? 0 ∧
    lastToolResultIdx c4Contents 1 = some 2 ∧
    (replaceOldToolResults c4Contents 1).get? 2 = c4Contents.get? 2 ∧
    (∃ c2, (replaceOldToolResults c4Contents 1).get? 1 = some c2 ∧
      c2.role = c4FrMsg1.role ∧ c2.parts.length = c4FrMsg1.parts.length ∧
      ∀ p ∈ c2.parts, ∀ fr, p.functionResponse = some fr →
        fr.response = callCompletePayload) := by
  have h := c4_history_rewriting c4Contents 1
  refine ⟨h.1, h.2.1 0 (by decide), rfl, h.2.2.1 2 rfl, ?_⟩
  exact h.2.2.2 1 c4FrMsg1 (by decide) rfl (by decide) rfl

/-- When every attempt yields a non-2xx HTTP response, the retry loop runs
all its retries, sleeping the fixed delay before each, and ends with the
last response. -/
theorem makeGeminiRequestRetryGo_allFail (att : Nat → AttemptResp) (delay : Nat)
    (sf : Nat → Nat) (bf : Nat → GJson)
    (hatt : ∀ k, att k = .http (sf k) (bf k)) (h200 : ∀ k, sf k ≠ 200) :
    ∀ (r k : Nat) (sl : List Nat),
      makeGeminiRequestRetryGo att delay (k + 1) r (sf k) (bf k) sl =
        .got (sf (k + r)) (bf (k + r)) (k + r + 1) (sl ++ List.replicate r delay) := by
  intro r
  induction r with
  | zero =>
    intro k sl
    simp [makeGeminiRequestRetryGo]
  | succ r ih =>
    intro k sl
    unfold makeGeminiRequestRetryGo
    simp only [hatt]
    rw [if_neg (h200 (k + 1))]
    rw [ih (k + 1) (sl ++ [delay])]
    have h1 : k + 1 + r = k + (r + 1) := by omega
    rw [h1]
    congr 1
    rw [List.append_assoc]
    rfl

/-- C3: an upstream call on iteration `i ≥ 1` is internal
(`is_internal_call = iteration > 0`); when every attempt returns a non-2xx
status it makes exactly `retry_count + 1` attempts with the fixed
`retry_delay` sleep between consecutive attempts and returns the last
error response; a call on iteration 0 makes exactly one attempt regardless
of status. -/
theorem c3_internal_retry_exact_attempts (maxRetries delay i : Nat)
    (att : Nat → AttemptResp) (sf : Nat → Nat) (bf : Nat → GJson)
    (hatt : ∀ k, att k = .http (sf k) (bf k)) (h200 : ∀ k, sf k ≠ 200) :
    (0 < i → makeGeminiRequestWithRetry maxRetries delay (decide (0 < i)) att =
      .got (sf maxRetries) (bf maxRetries) (maxRetries + 1)
        (List.replicate maxRetries delay)) ∧
    (i = 0 → makeGeminiRequestWithRetry maxRetries delay (decide (0 < i)) att =
      .got (sf 0) (bf 0) 1 []) := by
  constructor
  · intro hi
    unfold makeGeminiRequestWithRetry
    simp only [hatt]
    rw [if_pos ⟨by simp [hi], h200 0⟩]
    have := makeGeminiRequestRetryGo_allFail att delay sf bf hatt h200 maxRetries 0 []
    simpa using this
  · intro hi
    subst hi
    unfold makeGeminiRequestWithRetry
    simp only [hatt]
    rw [if_neg (by simp)]

/-- C3 witness: with `retry_count = 2`, `retry_delay = 5` and an upstream
that always answers 500, an internal call (iteration 1) makes three
attempts with two fixed sleeps and returns the last error; the iteration-0
call makes exactly one attempt. -/
theorem c3_witness :
    (∀ k : Nat, (fun _ : Nat => AttemptResp.http 500 ⟨[], none, none, none, some (.str "err")⟩) k =
      .http 500 ⟨[], none, none, none, some (.str "err")⟩) ∧
    makeGeminiRequestWithRetry 2 5 (decide (0 < 1))
      (fun _ => .http 500 ⟨[], none, none, none, some (.str "err")⟩) =
      .got 500 ⟨[], none, none, none, some (.str "err")⟩ 3 (List.replicate 2 5) ∧
    makeGeminiRequestWithRetry 2 5 (decide (0 < 0))
      (fun _ => .http 500 ⟨[], none, none, none, some (.str "err")⟩) =
      .got 500 ⟨[], none, none, none, some (.str "err")⟩ 1 [] := by
  refine ⟨fun k => rfl, ?_, ?_⟩
  · exact (c3_internal_retry_exact_attempts 2 5 1 _ (fun _ => 500)
      (fun _ => ⟨[], none, none, none, some (.str "err")⟩)
      (fun _ => rfl) (fun _ => by show (500 : Nat) ≠ 200; decide)).1 (by decide)
  · exact (c3_internal_retry_exact_attempts 2 5 0 _ (fun _ => 500)
      (fun _ => ⟨[], none, none, none, some (.str "err")⟩)
      (fun _ => rfl) (fun _ => by show (500 : Nat) ≠ 200; decide)).2 rfl

/-- C6: a tool-call dispatch whose qualified name is not in the manager's
tool map makes `MCPManager.call_tool` return the text
`"工具不存在: <name>"` (it neither raises nor returns `None`); when the
engine dispatches such a call (the classification read and the dispatch
read of the shared manager state are separate), that text is placed
verbatim in the `functionResponse` result slot of the appended tool-result
message and the iteration step continues rather than returning an error. -/
theorem c6_unknown_tool_result_slot
    (m : MgrState) (nm argsJson : String)
    (contents : List GContent) (accT accP : List String)
    (partList : List GPart) (role : Option String)
    (hnotin : mgrLookupTool m nm = none)
    (hfcs : getFunctionCalls partList = [⟨nm, argsJson⟩]) :
    mgrCallTool m nm argsJson = some ("工具不存在: " ++ nm) ∧
    gStep ⟨[nm], mgrCallTool m, true⟩
        ⟨[⟨⟨role, partList⟩, none⟩], none, none, none, none⟩ contents accT accP =
      .cont (contents ++
          [⟨some (role.getD "model"), partList⟩,
           ⟨some "user", [{ functionResponse := some ⟨nm, .obj [("result",
              .str ("工具不存在: " ++ nm))]⟩ }]⟩])
        (accT ++ collectThoughtTexts partList)
        (accP ++ [formatToolCallText nm argsJson]) := by
  have hcall : mgrCallTool m nm argsJson = some ("工具不存在: " ++ nm) := by
    unfold mgrCallTool
    rw [hnotin]
  have hne : ("工具不存在: " ++ nm) ≠ "" := by
    intro h
    have hd := congrArg String.data h
    rw [String.data_append] at hd
    have h0 : "工具不存在: ".data = [] := (List.append_eq_nil.mp hd).1
    exact absurd h0 (by decide)
  refine ⟨hcall, ?_⟩
  have hfilter : List.filter (fun fc => [nm].contains fc.name)
      [(⟨nm, argsJson⟩ : GFunctionCall)] = [⟨nm, argsJson⟩] := by
    simp
  simp only [gStep, hfcs]
  rw [if_neg (by simp)]
  rw [if_pos trivial]
  rw [if_pos (by rw [hfilter]; simp)]
  rw [hfilter]
  simp only [List.map_cons, List.map_nil]
  rw [hcall]
  simp only [pyOr]
  rw [if_neg hne]

/-- C6 witness: with an empty manager tool map, dispatching `a_b` yields
the `工具不存在` text in the tool-result slot and the step continues. -/
theorem c6_witness :
    mgrLookupTool ⟨[], []⟩ "a_b" = none ∧
    getFunctionCalls [({ functionCall := some ⟨"a_b", "\x7b\x7d"⟩ } : GPart)] =
      [⟨"a_b", "\x7b\x7d"⟩] ∧
    (mgrCallTool ⟨[], []⟩ "a_b" "\x7b\x7d" = some ("工具不存在: " ++ "a_b") ∧
     gStep ⟨["a_b"], mgrCallTool ⟨[], []⟩, true⟩
        ⟨[⟨⟨none, [{ functionCall := some ⟨"a_b", "\x7b\x7d"⟩ }]⟩, none⟩],
          none, none, none, none⟩ [] [] [] =
      .cont ([] ++
          [⟨some ((none : Option String).getD "model"),
            [{ functionCall := some ⟨"a_b", "\x7b\x7d"⟩ }]⟩,
           ⟨some "user", [{ functionResponse := some ⟨"a_b", .obj [("result",
              .str ("工具不存在: " ++ "a_b"))]⟩ }]⟩])
        ([] ++ collectThoughtTexts [{ functionCall := some ⟨"a_b", "\x7b\x7d"⟩ }])
        ([] ++ [formatToolCallText "a_b" "\x7b\x7d"])) := by
  refine ⟨rfl, rfl, ?_⟩
  exact c6_unknown_tool_result_slot ⟨[], []⟩ "a_b" "\x7b\x7d" [] [] []
    [{ functionCall := some ⟨"a_b", "\x7b\x7d"⟩ }] none rfl rfl

/-- The Gemini buffered loop makes at most `fuel` upstream iterations. -/
theorem gGo_calls_le (cfg : GConfig) (ctx : GCtx) (oracle : Nat → Nat → AttemptResp)
    (n0 : Nat) : ∀ fuel iter contents accT accP,
    (gGo cfg ctx oracle n0 fuel iter contents accT accP).2 ≤ fuel := by
  intro fuel
  induction fuel with
  | zero =>
    intro iter contents accT accP
    simp [gGo]
  | succ fuel ih =>
    intro iter contents accT accP
    simp only [gGo]
    cases hr : makeGeminiRequestWithRetry (cfg.apiRetryCount.getD 2)
        (cfg.apiRetryDelay.getD 5) (decide (0 < iter)) (oracle iter) with
    | raisedTimeout m a => simp
    | raisedReqError m a => simp
    | got status body a sl =>
      show ((if status ≠ 200 then ((GOutput.errResp status body : GOutput), 1)
        else match gStep ctx body (replaceOldToolResults contents n0) accT accP with
          | GStepRes.ret out _ _ => (out, 1)
          | GStepRes.cont contents2 accT2 accP2 =>
            ((gGo cfg ctx oracle n0 fuel (iter + 1) contents2 accT2 accP2).1,
              (gGo cfg ctx oracle n0 fuel (iter + 1) contents2 accT2 accP2).2 + 1)).2 ≤
        fuel + 1)
      by_cases hs : status ≠ 200
      · rw [if_pos hs]
        simp
      · rw [if_neg hs]
        cases hstep : gStep ctx body (replaceOldToolResults contents n0) accT accP with
        | ret out T P => simp
        | cont c2 T P =>
          simp only []
          exact Nat.succ_le_succ (ih (iter + 1) c2 T P)

/-- Every `ret` outcome of the loop body is a normal reply: the
accumulated-thoughts reply when anything was accumulated, the raw body
otherwise; and the returned accumulators extend the incoming ones. -/
theorem gStep_ret_reply (ctx : GCtx) (body : GJson) (contents : List GContent)
    (accT accP : List String) (out : GOutput) (T P : List String)
    (h : gStep ctx body contents accT accP = .ret out T P) :
    out = .reply (if T ≠ [] ∨ P ≠ [] then
        buildFinalResponseWithAccumulatedThoughts body T P else body) ∧
    (∃ T2, T = accT ++ T2) ∧ (∃ P2, P = accP ++ P2) := by
  simp only [gStep] at h
  split at h
  · cases h
    exact ⟨rfl, ⟨[], by simp⟩, ⟨[], by simp⟩⟩
  · split at h
    · cases h
      exact ⟨rfl, ⟨_, rfl⟩, ⟨[], by simp⟩⟩
    · split at h
      · split at h
        · exact absurd h (by simp)
        · cases h
          rename_i hfcs _ hmcp
          refine ⟨?_, ⟨_, rfl⟩, ⟨_, rfl⟩⟩
          rw [if_pos ?_]
          right
          intro hnil
          rcases List.append_eq_nil.mp hnil with ⟨-, h2⟩
          rw [List.map_eq_nil_iff] at h2
          rw [h2] at hfcs
          exact hfcs rfl
      · cases h
        rename_i hfcs _
        refine ⟨?_, ⟨_, rfl⟩, ⟨_, rfl⟩⟩
        rw [if_pos ?_]
        right
        intro hnil
        rcases List.append_eq_nil.mp hnil with ⟨-, h2⟩
        rw [List.map_eq_nil_iff] at h2
        rw [h2] at hfcs
        exact hfcs rfl

/-- Every `cont` outcome of the loop body extends the accumulators, and
the placeholder accumulator strictly: a continue only happens on a pass
that issued tool calls. -/
theorem gStep_cont_acc (ctx : GCtx) (body : GJson) (contents : List GContent)
    (accT accP : List String) (c2 : List GContent) (T P : List String)
    (h : gStep ctx body contents accT accP = .cont c2 T P) :
    (∃ T2, T = accT ++ T2) ∧ (∃ P2, P2 ≠ [] ∧ P = accP ++ P2) := by
  simp only [gStep] at h
  split at h
  · exact absurd h (by simp)
  · split at h
    · exact absurd h (by simp)
    · split at h
      · split at h
        · cases h
          rename_i hfcs _ _
          refine ⟨⟨_, rfl⟩, ⟨_, ?_, rfl⟩⟩
          intro h2
          rw [List.map_eq_nil_iff] at h2
          rw [h2] at hfcs
          exact hfcs rfl
        · exact absurd h (by simp)
      · exact absurd h (by simp)

/-- A `capReply` return of the Gemini loop always carries the synthetic
max-iterations reply. -/
theorem gGo_capReply (cfg : GConfig) (ctx : GCtx) (oracle : Nat → Nat → AttemptResp)
    (n0 : Nat) : ∀ fuel iter contents accT accP r,
    (gGo cfg ctx oracle n0 fuel iter contents accT accP).1 = .capReply r →
    r = geminiMaxIterReply := by
  intro fuel
  induction fuel with
  | zero =>
    intro iter contents accT accP r h
    simp [gGo] at h
    exact h.symm
  | succ fuel ih =>
    intro iter contents accT accP r h
    simp only [gGo] at h
    cases hr : makeGeminiRequestWithRetry (cfg.apiRetryCount.getD 2)
        (cfg.apiRetryDelay.getD 5) (decide (0 < iter)) (oracle iter) with
    | raisedTimeout m a => rw [hr] at h; exact absurd h (by simp)
    | raisedReqError m a => rw [hr] at h; exact absurd h (by simp)
    | got status body a sl =>
      rw [hr] at h
      replace h : ((if status ≠ 200 then ((GOutput.errResp status body : GOutput), 1)
        else match gStep ctx body (replaceOldToolResults contents n0) accT accP with
          | GStepRes.ret out _ _ => (out, 1)
          | GStepRes.cont contents2 accT2 accP2 =>
            ((gGo cfg ctx oracle n0 fuel (iter + 1) contents2 accT2 accP2).1,
              (gGo cfg ctx oracle n0 fuel (iter + 1) contents2 accT2 accP2).2 + 1)).1 =
        GOutput.capReply r) := h
      by_cases hs : status ≠ 200
      · rw [if_pos hs] at h
        exact absurd h (by simp)
      · rw [if_neg hs] at h
        cases hstep : gStep ctx body (replaceOldToolResults contents n0) accT accP with
        | ret out T P =>
          rw [hstep] at h
          replace h : out = GOutput.capReply r := h
          cases out with
          | errResp st b => exact absurd h (by simp)
          | reply rr => exact absurd h (by simp)
          | capReply rr =>
            have hrr := (gStep_ret_reply _ _ _ _ _ _ _ _ hstep).1
            exact absurd hrr (by simp)
        | cont c2 T P =>
          rw [hstep] at h
          replace h : (gGo cfg ctx oracle n0 fuel (iter + 1) c2 T P).1 = GOutput.capReply r := h
          exact ih (iter + 1) c2 T P r h


/-- The DeepSeek buffered loop makes at most `fuel` upstream iterations. -/
theorem dsGo_calls_le (ctx : DSCtx) (oracle : Nat → DSResp) :
    ∀ fuel iter msgs amIdx u, (dsGo ctx oracle fuel iter msgs amIdx u).2 ≤ fuel := by
  intro fuel
  induction fuel with
  | zero =>
    intro iter msgs amIdx u
    simp [dsGo]
  | succ fuel ih =>
    intro iter msgs amIdx u
    simp only [dsGo]
    split
    · simp
    · split
      · split
        · simp only []
          exact Nat.succ_le_succ (ih _ _ _ _)
        · split
          · simp
          · split
            · simp
            · simp
      · split
        · simp
        · simp

/-- One pass of the DeepSeek loop either returns a non-cap output after
its single upstream call, or recurses on the remaining fuel. -/
theorem dsGo_succ_cases (ctx : DSCtx) (oracle : Nat → DSResp) :
    ∀ fuel iter msgs amIdx u,
      (∃ out, dsGo ctx oracle (fuel + 1) iter msgs amIdx u = (out, 1) ∧
        ∀ u2, out ≠ .maxIterations u2) ∨
      (∃ msgs2 amIdx2 u2,
        dsGo ctx oracle (fuel + 1) iter msgs amIdx u =
          ((dsGo ctx oracle fuel (iter + 1) msgs2 amIdx2 u2).1,
           (dsGo ctx oracle fuel (iter + 1) msgs2 amIdx2 u2).2 + 1)) := by
  intro fuel iter msgs amIdx u
  simp only [dsGo]
  split
  · exact Or.inl ⟨_, rfl, fun u2 => by simp⟩
  · split
    · split
      · exact Or.inr ⟨_, _, _, rfl⟩
      · split
        · exact Or.inl ⟨_, rfl, fun u2 => by simp⟩
        · split
          · exact Or.inl ⟨_, rfl, fun u2 => by simp⟩
          · exact Or.inl ⟨_, rfl, fun u2 => by simp⟩
    · split
      · exact Or.inl ⟨_, rfl, fun u2 => by simp⟩
      · exact Or.inl ⟨_, rfl, fun u2 => by simp⟩

/-- The DeepSeek loop returns its synthetic max-iterations reply only when
all its fuel is spent: exactly `fuel` upstream calls were made. -/
theorem dsGo_maxIterations_at_cap (ctx : DSCtx) (oracle : Nat → DSResp) :
    ∀ fuel iter msgs amIdx u u2,
      (dsGo ctx oracle fuel iter msgs amIdx u).1 = .maxIterations u2 →
      (dsGo ctx oracle fuel iter msgs amIdx u).2 = fuel := by
  intro fuel
  induction fuel with
  | zero =>
    intro iter msgs amIdx u u2 _
    rfl
  | succ fuel ih =>
    intro iter msgs amIdx u u2 h
    rcases dsGo_succ_cases ctx oracle fuel iter msgs amIdx u with
      ⟨out, heq, hne⟩ | ⟨m2, a2, u3, heq⟩
    · rw [heq] at h
      exact absurd h (hne u2)
    · rw [heq] at h ⊢
      simp only [] at h ⊢
      rw [ih _ _ _ _ u2 h]

/-- C2 counterexample: with no cap configured anywhere, the DeepSeek
buffered engine stops after exactly 10 upstream iterations and returns its
synthetic max-iterations reply, even though iteration 10 of the upstream
would have produced a final answer with no tool calls — under the claimed
default cap of 100 the run would have completed normally. -/
theorem c2_deepseek_cap_is_ten :
    dsProcessRequest c2Ctx c2Oracle [{ role := "user", content := some "hi" }] =
      (.maxIterations ⟨10, 10, 20⟩, 10) ∧
    (c2Oracle 10).message.toolCalls = none ∧
    (10 : Nat) ≠ 100 := by
  refine ⟨by decide, rfl, by decide⟩

/-- C2 (amended): each inbound request induces a bounded loop — the Gemini
buffered engine caps at `CONFIG max_iterations` (default 100 when not
configured) and at the cap returns the synthetic reply marked
`[达到最大工具调用迭代次数]` / `MAX_TOKENS` instead of raising; the
DeepSeek buffered engine caps at the hard-coded 10 and returns its
synthetic max-iterations reply exactly when all 10 iterations are used. -/
theorem c2_iteration_caps :
    (∀ (cfg : GConfig) (ctx : GCtx) (oracle : Nat → Nat → AttemptResp)
       (c0 : List GContent),
      (gProcessRequest cfg ctx oracle c0).2 ≤ cfg.maxIterations.getD 100) ∧
    (∀ (cfg : GConfig) (ctx : GCtx) (oracle : Nat → Nat → AttemptResp)
       (c0 : List GContent) (r : GJson),
      (gProcessRequest cfg ctx oracle c0).1 = .capReply r → r = geminiMaxIterReply) ∧
    geminiMaxIterReply.candidates =
      [⟨⟨some "model", [⟨some "[达到最大工具调用迭代次数]", false, none, none, none⟩]⟩,
        some "MAX_TOKENS"⟩] ∧
    (∀ (ctx : DSCtx) (oracle : Nat → DSResp) (msgs : List DSMessage),
      (dsProcessRequest ctx oracle msgs).2 ≤ 10) ∧
    (∀ (ctx : DSCtx) (oracle : Nat → DSResp) (msgs : List DSMessage) (u : DSUsage),
      (dsProcessRequest ctx oracle msgs).1 = .maxIterations u →
      (dsProcessRequest ctx oracle msgs).2 = 10) := by
  refine ⟨?_, ?_, rfl, ?_, ?_⟩
  · intro cfg ctx oracle c0
    exact gGo_calls_le cfg ctx oracle c0.length (cfg.maxIterations.getD 100) 0 c0 [] []
  · intro cfg ctx oracle c0 r h
    exact gGo_capReply cfg ctx oracle c0.length (cfg.maxIterations.getD 100) 0 c0 [] [] r h
  · intro ctx oracle msgs
    exact dsGo_calls_le ctx oracle 10 0 msgs none {}
  · intro ctx oracle msgs u h
    exact dsGo_maxIterations_at_cap ctx oracle 10 0 msgs none {} u h

/-- C2 witness: a Gemini config with `max_iterations = 0` immediately
returns the synthetic cap reply, and a DeepSeek run that always issues
tool calls hits the hard-coded cap after exactly 10 calls. -/
theorem c2_witness :
    (gProcessRequest ⟨some 0, none, none⟩ c1Ctx c1Oracle []).1 =
      .capReply geminiMaxIterReply ∧
    geminiMaxIterReply = geminiMaxIterReply ∧
    (dsProcessRequest c2Ctx c2Oracle []).1 = .maxIterations ⟨10, 10, 20⟩ ∧
    (dsProcessRequest c2Ctx c2Oracle []).2 = 10 := by
  refine ⟨rfl, ?_, by decide, ?_⟩
  · exact c2_iteration_caps.2.1 ⟨some 0, none, none⟩ c1Ctx c1Oracle [] geminiMaxIterReply rfl
  · exact c2_iteration_caps.2.2.2.2 c2Ctx c2Oracle [] ⟨10, 10, 20⟩ (by decide)

/-- C8 counterexample: a successful `tools/call` reply whose `content`
array holds no `"text"` item makes `call_tool` return
`json.dumps(content)` — here `"[]"` — and not the empty concatenation of
text fragments the claim prescribes. -/
theorem c8_empty_content_returns_dump :
    callToolFromReply (resultReply []) = .ok (some "[]") ∧ ("[]" : String) ≠ "" := by
  exact ⟨rfl, by decide⟩

/-- A content item without a `type` member is not collected. -/
theorem textPartsStep_none (acc : List JVal) (it : JVal)
    (hty : pyGet it "type" = none) : textPartsStep acc it = acc := by
  unfold textPartsStep
  rw [hty]
  rfl

/-- A content item of type `"text"` appends `item.get("text", "")`. -/
theorem textPartsStep_take (acc : List JVal) (it : JVal)
    (hty : pyGet it "type" = some (.str "text")) :
    textPartsStep acc it = acc ++ [(pyGet it "text").getD (.str "")] := by
  unfold textPartsStep
  rw [hty]
  rfl

/-- A content item of any other type is not collected. -/
theorem textPartsStep_skip (acc : List JVal) (it v : JVal)
    (hty : pyGet it "type" = some v) (hnot : jvalIsStr v "text" = false) :
    textPartsStep acc it = acc := by
  simp [textPartsStep, hty, hnot]

/-- The imperative `text_parts` loop collects exactly the
specification-level text fragments (as strings) whenever every text-typed
item carries a string (or absent) `text` member. -/
theorem collectTextParts_eq :
    ∀ (items : List JVal),
      (∀ it ∈ items, ∀ v, pyGet it "type" = some (.str "text") →
        pyGet it "text" = some v → ∃ s, v = .str s) →
      collectTextParts items = (specTextFragments items).map JVal.str := by
  suffices hs : ∀ (items : List JVal),
      (∀ it ∈ items, ∀ v, pyGet it "type" = some (.str "text") →
        pyGet it "text" = some v → ∃ s, v = .str s) →
      ∀ acc, items.foldl textPartsStep acc =
        acc ++ (specTextFragments items).map JVal.str by
    intro items h
    have := hs items h []
    simpa [collectTextParts] using this
  intro items
  induction items with
  | nil =>
    intro _ acc
    simp [specTextFragments]
  | cons it rest ih =>
    intro h acc
    have hrest := fun it2 h2 => h it2 (List.mem_cons_of_mem it h2)
    have hit := h it (List.mem_cons_self it rest)
    simp only [List.foldl_cons]
    cases hty : pyGet it "type" with
    | none =>
      have hspec : specTextFragments (it :: rest) = specTextFragments rest := by
        simp [specTextFragments, hty]
      rw [textPartsStep_none acc it hty, hspec]
      exact ih hrest acc
    | some v =>
      by_cases hvt : v = .str "text"
      · subst hvt
        rw [textPartsStep_take acc it hty]
        cases htx : pyGet it "text" with
        | none =>
          have hspec : specTextFragments (it :: rest) =
              "" :: specTextFragments rest := by
            simp [specTextFragments, hty, htx]
          rw [hspec]
          rw [ih hrest (acc ++ [(none : Option JVal).getD (.str "")])]
          simp
        | some v2 =>
          rcases hit v2 hty htx with ⟨s2, hv2⟩
          subst hv2
          have hspec : specTextFragments (it :: rest) =
              s2 :: specTextFragments rest := by
            simp [specTextFragments, hty, htx]
          rw [hspec]
          rw [ih hrest (acc ++ [(some (JVal.str s2)).getD (.str "")])]
          simp
      · have hnot : jvalIsStr v "text" = false := by
          cases v with
          | str s =>
            have hs : s ≠ "text" := fun he => hvt (by rw [he])
            simp [jvalIsStr, hs]
          | null => rfl
          | bool b => rfl
          | num n => rfl
          | arr l => rfl
          | obj mem => rfl
        have hspec : specTextFragments (it :: rest) = specTextFragments rest := by
          cases v with
          | str s =>
            have hs : s ≠ "text" := fun he => hvt (by rw [he])
            simp [specTextFragments, hty, hs]
          | null => simp [specTextFragments, hty]
          | bool b => simp [specTextFragments, hty]
          | num n => simp [specTextFragments, hty]
          | arr l => simp [specTextFragments, hty]
          | obj mem => simp [specTextFragments, hty]
        rw [textPartsStep_skip acc it v hty hnot, hspec]
        exact ih hrest acc

/-- `asStrings` inverts mapping `JVal.str` over a string list. -/
theorem asStrings_map_str : ∀ l : List String, asStrings (l.map JVal.str) = some l := by
  intro l
  induction l with
  | nil => rfl
  | cons s rest ih => simp [asStrings, ih]

/-- C8 (amended): on a successful `tools/call` reply (all content items
objects, text fragments strings), `call_tool` returns the text fragments
of the `type = "text"` items joined with `"\n"` separators, in arrival
order, when at least one exists, and `json.dumps(content)` when none do;
on an error reply it returns `"错误: " + error.message`, with the default
`"未知错误"` when `message` is absent. The postlude is shared verbatim by
the stdio, http and sse adapters. -/
theorem c8_call_tool_reply_text :
    (∀ items : List JVal,
      items.all isObjJ = true →
      (∀ it ∈ items, ∀ v, pyGet it "type" = some (.str "text") →
        pyGet it "text" = some v → ∃ s, v = .str s) →
      callToolFromReply (resultReply items) =
        .ok (some (if specTextFragments items = [] then jvalDump true (.arr items)
          else String.intercalate "\n" (specTextFragments items)))) ∧
    (∀ (errMembers : List (String × JVal)) (msg : String),
      pyGet (.obj errMembers) "message" = some (.str msg) →
      callToolFromReply (errorReply errMembers) = .ok (some ("错误: " ++ msg))) ∧
    (∀ errMembers : List (String × JVal),
      pyGet (.obj errMembers) "message" = none →
      callToolFromReply (errorReply errMembers) = .ok (some ("错误: " ++ "未知错误"))) := by
  refine ⟨?_, ?_, ?_⟩
  · intro items hall htext
    have hred : callToolFromReply (resultReply items) =
        (if items.all isObjJ then
          (if (collectTextParts items).isEmpty then
            Except.ok (some (jvalDump true (.arr items)))
          else
            match asStrings (collectTextParts items) with
            | some strs => Except.ok (some (String.intercalate "\n" strs))
            | none => Except.error ())
        else Except.error ()) := rfl
    rw [hred, if_pos hall, collectTextParts_eq items htext]
    by_cases hsp : specTextFragments items = []
    · rw [if_pos hsp]
      rw [if_pos (by rw [hsp]; rfl)]
    · rw [if_neg hsp]
      rw [if_neg (by
        intro hie
        exact hsp (List.map_eq_nil_iff.mp (List.isEmpty_iff.mp hie)))]
      rw [asStrings_map_str]
  · intro errMembers msg hmsg
    have hred : callToolFromReply (errorReply errMembers) =
        Except.ok (some ("错误: " ++
          (match pyGet (.obj errMembers) "message" with
           | some (.str s) => s
           | some v => jvalDump false v
           | none => "未知错误"))) := rfl
    rw [hred, hmsg]
  · intro errMembers hmsg
    have hred : callToolFromReply (errorReply errMembers) =
        Except.ok (some ("错误: " ++
          (match pyGet (.obj errMembers) "message" with
           | some (.str s) => s
           | some v => jvalDump false v
           | none => "未知错误"))) := rfl
    rw [hred, hmsg]

/-- C8 witness: two text fragments are newline-joined in order; an error
reply with a string message yields the formatted error text; an error
reply without a message yields the default. -/
theorem c8_witness :
    callToolFromReply (resultReply
        [.obj [("type", .str "text"), ("text", .str "a")],
         .obj [("type", .str "text"), ("text", .str "b")]]) =
      .ok (some (if specTextFragments
          [.obj [("type", .str "text"), ("text", .str "a")],
           .obj [("type", .str "text"), ("text", .str "b")]] = []
        then jvalDump true (.arr
          [.obj [("type", .str "text"), ("text", .str "a")],
           .obj [("type", .str "text"), ("text", .str "b")]])
        else String.intercalate "\n" (specTextFragments
          [.obj [("type", .str "text"), ("text", .str "a")],
           .obj [("type", .str "text"), ("text", .str "b")]]))) ∧
    specTextFragments
        [.obj [("type", .str "text"), ("text", .str "a")],
         .obj [("type", .str "text"), ("text", .str "b")]] = ["a", "b"] ∧
    String.intercalate "\n" ["a", "b"] = "a\nb" ∧
    callToolFromReply (errorReply [("message", .str "boom")]) =
      .ok (some ("错误: " ++ "boom")) ∧
    callToolFromReply (errorReply [("code", .num 1)]) =
      .ok (some ("错误: " ++ "未知错误")) := by
  refine ⟨?_, rfl, rfl, ?_, ?_⟩
  · apply c8_call_tool_reply_text.1
    · rfl
    · intro it hit v h1 h2
      rcases List.mem_cons.mp hit with he | hit2
      · subst he
        have h2x : some (JVal.str "a") = some v := h2
        exact ⟨"a", (Option.some_inj.mp h2x).symm⟩
      · rcases List.mem_cons.mp hit2 with he | habs
        · subst he
          have h2x : some (JVal.str "b") = some v := h2
          exact ⟨"b", (Option.some_inj.mp h2x).symm⟩
        · exact absurd habs (List.not_mem_nil it)
  · exact c8_call_tool_reply_text.2.1 [("message", .str "boom")] "boom" rfl
  · exact c8_call_tool_reply_text.2.2 [("code", .num 1)] rfl

/-- A normal reply of the Gemini loop is the accumulated-thoughts reply
built from the ghost trace: the trace is defined, the reply is
`buildFinalResponseWithAccumulatedThoughts` of the trace (or the raw last
body when nothing accumulated), and the trace placeholders are non-empty
whenever the run made at least two upstream calls. -/
theorem gGo_to_gRunAcc (cfg : GConfig) (ctx : GCtx) (oracle : Nat → Nat → AttemptResp)
    (n0 : Nat) :
    ∀ fuel iter contents accT accP r n,
      gGo cfg ctx oracle n0 fuel iter contents accT accP = (.reply r, n) →
      ∃ T P last,
        gRunAcc cfg ctx oracle n0 fuel iter contents accT accP = some (T, P, last) ∧
        r = (if T ≠ [] ∨ P ≠ [] then
          buildFinalResponseWithAccumulatedThoughts last T P else last) ∧
        ((2 ≤ n ∨ accP ≠ []) → P ≠ []) := by
  intro fuel
  induction fuel with
  | zero =>
    intro iter contents accT accP r n h
    simp [gGo] at h
  | succ fuel ih =>
    intro iter contents accT accP r n h
    simp only [gGo] at h
    simp only [gRunAcc]
    cases hr : makeGeminiRequestWithRetry (cfg.apiRetryCount.getD 2)
        (cfg.apiRetryDelay.getD 5) (decide (0 < iter)) (oracle iter) with
    | raisedTimeout m a =>
      rw [hr] at h
      exact absurd h (by simp)
    | raisedReqError m a =>
      rw [hr] at h
      exact absurd h (by simp)
    | got status body a sl =>
      rw [hr] at h
      replace h : ((if status ≠ 200 then ((GOutput.errResp status body : GOutput), 1)
        else match gStep ctx body (replaceOldToolResults contents n0) accT accP with
          | GStepRes.ret out _ _ => (out, 1)
          | GStepRes.cont contents2 accT2 accP2 =>
            ((gGo cfg ctx oracle n0 fuel (iter + 1) contents2 accT2 accP2).1,
              (gGo cfg ctx oracle n0 fuel (iter + 1) contents2 accT2 accP2).2 + 1)) =
        ((GOutput.reply r : GOutput), n)) := h
      show ∃ T P last,
        (if status ≠ 200 then none
         else match gStep ctx body (replaceOldToolResults contents n0) accT accP with
           | GStepRes.ret _ accT2 accP2 => some (accT2, accP2, body)
           | GStepRes.cont contents2 accT2 accP2 =>
             gRunAcc cfg ctx oracle n0 fuel (iter + 1) contents2 accT2 accP2) =
          some (T, P, last) ∧ _ ∧ _
      by_cases hs : status ≠ 200
      · rw [if_pos hs] at h
        exact absurd h (by simp)
      · rw [if_neg hs] at h
        rw [if_neg hs]
        cases hstep : gStep ctx body (replaceOldToolResults contents n0) accT accP with
        | ret out T P =>
          rw [hstep] at h
          replace h : ((out, 1) : GOutput × Nat) = (.reply r, n) := h
          injection h with ho hn
          rcases gStep_ret_reply _ _ _ _ _ _ _ _ hstep with ⟨hout, -, ⟨P2, hP⟩⟩
          refine ⟨T, P, body, rfl, ?_, ?_⟩
          · rw [ho] at hout
            exact (GOutput.reply.injEq _ _).mp hout
          · rintro (hge | hne)
            · omega
            · rw [hP]
              intro hnil
              exact hne (List.append_eq_nil.mp hnil).1
        | cont c2 T2 P2 =>
          rw [hstep] at h
          replace h : (((gGo cfg ctx oracle n0 fuel (iter + 1) c2 T2 P2).1,
              (gGo cfg ctx oracle n0 fuel (iter + 1) c2 T2 P2).2 + 1) : GOutput × Nat) =
            (.reply r, n) := h
          injection h with h1 h2
          have hin : gGo cfg ctx oracle n0 fuel (iter + 1) c2 T2 P2 =
              (.reply r, (gGo cfg ctx oracle n0 fuel (iter + 1) c2 T2 P2).2) := by
            rw [← h1]
          rcases ih (iter + 1) c2 T2 P2 r _ hin with ⟨T, P, last, hacc, hrr, hPne⟩
          refine ⟨T, P, last, hacc, hrr, ?_⟩
          intro _
          apply hPne
          right
          rcases gStep_cont_acc _ _ _ _ _ _ _ _ hstep with ⟨-, ⟨P3, hP3ne, hP3⟩⟩
          rw [hP3]
          intro hnil
          exact hP3ne (List.append_eq_nil.mp hnil).2

/-- With at least one accumulated placeholder, the accumulated-thoughts
reply has exactly one candidate whose parts start with a single
thought-tagged block — the two-newline join of the non-blank thought
texts followed by the newline-joined placeholders — and continue with the
non-thought, non-call parts of the last upstream body. -/
theorem buildFinal_single_thought_block (last : GJson) (T P : List String)
    (hP : P ≠ []) :
    (buildFinalResponseWithAccumulatedThoughts last T P).candidates =
      [⟨⟨some "model",
        ⟨some (String.intercalate "\n\n"
            (T.filter pyStripTruthy ++ [String.intercalate "\n" P])),
          true, none, none, none⟩ ::
        (match last.candidates with
         | [] => []
         | cand :: _ =>
           cand.content.parts.filter (fun p => !p.thought && p.functionCall.isNone))⟩,
      (match last.candidates with
       | [] => none
       | cand :: _ => some (cand.finishReason.getD "STOP"))⟩] := by
  simp only [buildFinalResponseWithAccumulatedThoughts]
  rw [if_pos hP]
  rw [if_pos (by
    intro hnil
    exact absurd (List.append_eq_nil.mp hnil).2 (by simp))]
  rw [List.singleton_append]

/-- C1 (amended): for every buffered Gemini request that completes with a
normal reply after at least one tool-call iteration (at least two upstream
calls), the final reply consists of exactly one candidate whose parts
begin with a single thought-tagged text block placed before the final
visible content; the block is the `"\n\n"` join of every reasoning
fragment of the run that is not pure whitespace, in issue order, followed
by one section holding every tool-call placeholder of the run joined by
`"\n"`, in issue order — the placeholders are grouped after all reasoning
fragments rather than interleaved at their issue positions — and the
remaining parts are the non-thought, non-call parts of the last upstream
body. -/
theorem c1_final_reasoning_block
    (cfg : GConfig) (ctx : GCtx) (oracle : Nat → Nat → AttemptResp)
    (contents0 : List GContent) (r : GJson) (n : Nat)
    (hrun : gProcessRequest cfg ctx oracle contents0 = (.reply r, n))
    (hiter : 2 ≤ n) :
    ∃ T P last,
      gRunAcc cfg ctx oracle contents0.length (cfg.maxIterations.getD 100) 0
          contents0 [] [] = some (T, P, last) ∧
      P ≠ [] ∧
      r = buildFinalResponseWithAccumulatedThoughts last T P ∧
      r.candidates =
        [⟨⟨some "model",
          ⟨some (String.intercalate "\n\n"
              (T.filter pyStripTruthy ++ [String.intercalate "\n" P])),
            true, none, none, none⟩ ::
          (match last.candidates with
           | [] => []
           | cand :: _ =>
             cand.content.parts.filter (fun p => !p.thought && p.functionCall.isNone))⟩,
        (match last.candidates with
         | [] => none
         | cand :: _ => some (cand.finishReason.getD "STOP"))⟩] ∧
      (∀ p, p ∈ (match last.candidates with
           | [] => ([] : List GPart)
           | cand :: _ =>
             cand.content.parts.filter (fun p => !p.thought && p.functionCall.isNone)) →
        p.thought = false) := by
  have hrun2 : gGo cfg ctx oracle contents0.length (cfg.maxIterations.getD 100) 0
      contents0 [] [] = (.reply r, n) := hrun
  rcases gGo_to_gRunAcc cfg ctx oracle contents0.length (cfg.maxIterations.getD 100)
      0 contents0 [] [] r n hrun2 with ⟨T, P, last, hacc, hrr, hPne⟩
  have hP : P ≠ [] := hPne (Or.inl hiter)
  rw [if_pos (Or.inr hP)] at hrr
  refine ⟨T, P, last, hacc, hP, hrr, ?_, ?_⟩
  · rw [hrr]
    exact buildFinal_single_thought_block last T P hP
  · intro p hp
    cases hlc : last.candidates with
    | nil =>
      rw [hlc] at hp
      exact absurd hp (List.not_mem_nil p)
    | cons cand rest =>
      rw [hlc] at hp
      have hmem := (List.mem_filter.mp hp).2
      simp only [Bool.and_eq_true] at hmem
      simpa using hmem.1

/-- C1 counterexample: in the concrete two-iteration run, the single
thought block is `"A\n\nB\n\n\n\n「调用工具：srv_t|内容：\x7b\x7d」\n\n"`.
The claim's issue order — thought `"A"`, then the placeholder of the call
issued right after it, then thought `"B"` — does NOT occur in the block;
the placeholder is grouped after all reasoning fragments instead. -/
theorem c1_placeholder_not_at_issue_position :
    ∃ r : GJson,
      gProcessRequest {} c1Ctx c1Oracle [] = (.reply r, 2) ∧
      r.candidates =
        [⟨⟨some "model",
          [⟨some "A\n\nB\n\n\n\n「调用工具：srv_t|内容：\x7b\x7d」\n\n",
              true, none, none, none⟩,
           ⟨some "done", false, none, none, none⟩]⟩, some "STOP"⟩] ∧
      occursInOrderFrom
        "A\n\nB\n\n\n\n「调用工具：srv_t|内容：\x7b\x7d」\n\n".data 0
        ["A".data, (formatToolCallText "srv_t" "\x7b\x7d").data, "B".data] = false ∧
      occursInOrderFrom
        "A\n\nB\n\n\n\n「调用工具：srv_t|内容：\x7b\x7d」\n\n".data 0
        ["A".data, "B".data, (formatToolCallText "srv_t" "\x7b\x7d").data] = true := by
  exact ⟨_, rfl, rfl, by decide, by decide⟩

/-- C1 witness: the amended theorem applies to the concrete two-iteration
run: the run ends as a normal reply after two upstream calls, the ghost
trace is defined, placeholders were accumulated, and the reply is the
accumulated-thoughts rebuild of the last body. -/
theorem c1_witness :
    ∃ r, gProcessRequest {} c1Ctx c1Oracle [] = (.reply r, 2) ∧
      ∃ T P last,
        gRunAcc {} c1Ctx c1Oracle 0 100 0 [] [] [] = some (T, P, last) ∧
        P ≠ [] ∧ r = buildFinalResponseWithAccumulatedThoughts last T P := by
  refine ⟨_, rfl, ?_⟩
  rcases c1_final_reasoning_block {} c1Ctx c1Oracle [] _ 2 rfl (by decide)
    with ⟨T, P, last, h1, h2, h3, _, _⟩
  exact ⟨T, P, last, h1, h2, h3⟩
